import Mathlib

/-!
Verification development for the automation engine of VRC-Event-Creator
(source: the automation-engine module, cited below by its line numbers).

Conventions of the shallow embedding:

* Instants are modelled as `Int` milliseconds since the Unix epoch.  The
  engine stores instants as ISO-8601 strings produced by
  `Date.prototype.toISOString` and re-parses them with `Date.parse`; since
  `toISOString` is injective and `Date.parse` is its left inverse, an
  ISO-string field is represented directly by its millisecond value
  (`Option Int`, `none` for a missing or unparseable field).
* The host timezone is fixed to UTC, so the local-time calendar accessors
  (`getMonth`, `getFullYear`, the `new Date(y, m, d, ...)` constructor)
  coincide with the UTC calendar of the stored instants.
* JavaScript statuses are plain strings and are modelled as `String`.
* `x || d` on a possibly-absent JavaScript number is modelled by `jsOr` /
  `jsOrOpt` (0 and absence both fall back to the default, as in JS).
* Pending-event ids: the engine builds ids of the shape
  `pending_{groupId}_{profileKey}_{eventStartMillis}` and only ever asks an
  id for the millisecond value of its final `_`-separated token
  (`parsePendingEventIdStartMs`).  Inside the store model an id is
  represented structurally by `PendingId`: `det g p ms` stands for an id
  whose final token parses to the finite number `ms` (in particular every
  engine-built key), and `other s` stands for an id whose final token does
  not parse to a finite number.  The string-level parser itself is modelled
  separately (`parsePendingEventIdStartMs` below) for the wire-format claims.
-/

/-- Structural model of a pending-event id (see the header note). -/
inductive PendingId where
  | det (groupId : String) (profileKey : String) (startMs : Int)
  | other (s : String)
deriving DecidableEq

/-- Recognized manual-override fields used by the engine's control flow.
Overrides never store explicit `null` values (the writers store real
values), so key presence is modelled by `Option`. -/
structure Overrides where
  title : Option String
  eventStartsAt : Option Int
  durationMinutes : Option Int
  timezone : Option String
deriving DecidableEq

/-- A pending record of the store (source: the objects kept in
`pendingEvents` / `deletedEvents`). -/
structure PendingEvent where
  id : PendingId
  slotKey : Option PendingId
  groupId : String
  profileKey : String
  scheduledPublishTime : Option Int
  eventStartsAt : Option Int
  manualOverrides : Option Overrides
  status : String
  eventId : Option String
  missedAt : Option Int
  queuedAt : Option Int
  deletedAt : Option Int
deriving DecidableEq

/-- Per-profile automation state (source: entries of
`automationState.profiles`). -/
structure ProfileState where
  eventsCreated : Int
  activationStartsAt : Option Int
  lastSuccess : Option Int
  lastEventId : Option String
deriving DecidableEq

/-- A profile's automation block. Absent numeric fields read as 0 through
the code's `|| 0` defaults, so they are stored as plain `Int`. -/
structure Automation where
  enabled : Bool
  timingMode : String
  daysOffset : Int
  hoursOffset : Int
  minutesOffset : Int
  monthlyDay : Int
  monthlyHour : Int
  monthlyMinute : Int
  repeatMode : String
  repeatCount : Int
deriving DecidableEq

/-- The profile fields the engine reads. `patterns` is opaque to the
engine (only its emptiness is tested); pattern expansion is the external
pure function of the spec and its result is passed in as a parameter. -/
structure Profile where
  name : Option String
  description : Option String
  duration : Option Int
  timezone : Option String
  patterns : List String
  automation : Option Automation
deriving DecidableEq

/-- The (read-only) profile store: `profilesRef[groupId]?.profiles?.[profileKey]`. -/
def ProfilesMap : Type := String → String → Option Profile

/-- The engine's mutable store: `pendingEvents`, `deletedEvents` and
`automationState.profiles` (an association list keyed by
`groupId ++ "::" ++ profileKey`).  The in-memory timer map and the
rate-limit queue live outside this structure; timer registrations are
reported as explicit effects. -/
structure EngineState where
  pendingEvents : List PendingEvent
  deletedEvents : List PendingEvent
  automationProfiles : List (String × ProfileState)
deriving DecidableEq

/-- A remote upcoming event as consumed by `reconcilePublishedEvents`. -/
structure RemoteEvent where
  id : Option String
  startsAtUtc : Option Int
  eventStartsAt : Option Int
  title : Option String
deriving DecidableEq

/-- `x || d` for a JavaScript number that is present: 0 is falsy. -/
def jsOr (x d : Int) : Int := if x = 0 then d else x

/-- `x || d` for a possibly-absent JavaScript number. -/
def jsOrOpt (x : Option Int) (d : Int) : Int :=
  match x with
  | some v => if v = 0 then d else v
  | none => d

-- part_002 line 48
def getProfileStateKey (groupId profileKey : String) : String :=
  groupId ++ "::" ++ profileKey

-- part_002 lines 52-57: `knownGroupIds` is `none` when no known set is registered.
def isKnownGroupId (knownGroupIds : Option (List String)) (groupId : String) : Bool :=
  match knownGroupIds with
  | none => true
  | some ids => decide (groupId ∈ ids)

-- part_002 lines 105-111: in the millisecond model `Date.parse ∘ toISOString`
-- is the identity, so parsing a stored instant is the identity on `Option Int`.
def parseEventStartMs (value : Option Int) : Option Int := value

-- part_002 lines 113-119
def buildPendingEventId (groupId profileKey : String) (eventStartsAt : Option Int) :
    Option PendingId :=
  match parseEventStartMs eventStartsAt with
  | none => none
  | some ms => if groupId = "" ∨ profileKey = "" then none else some (.det groupId profileKey ms)

-- part_002 lines 121-129, on structural ids (see the header note; the
-- string-level version is `parsePendingEventIdStartMs` further below).
def pendingIdStartMs : PendingId → Option Int
  | .det _ _ ms => some ms
  | .other _ => none

-- part_002 lines 131-133
def isDeterministicPendingId (id : PendingId) : Bool :=
  (pendingIdStartMs id).isSome

-- part_002 lines 135-141
def getPendingSlotStartMs (e : PendingEvent) : Option Int :=
  (e.slotKey.bind pendingIdStartMs).orElse (fun _ => pendingIdStartMs e.id)

-- part_002 lines 143-158
def getRestoreStartMs (e : PendingEvent) : Option Int :=
  let slotStartMs := getPendingSlotStartMs e
  let currentStartMs := parseEventStartMs e.eventStartsAt
  match slotStartMs, currentStartMs with
  | some s, some c =>
    if s ≠ c ∧ (e.manualOverrides.bind (fun o => o.eventStartsAt)).isSome then some s
    else some c
  | none, some c => some c
  | some s, none => some s
  | none, none => none

-- part_002 lines 160-168
def derivePendingSlotKey (e : PendingEvent) : Option PendingId :=
  if isDeterministicPendingId e.id then some e.id
  else buildPendingEventId e.groupId e.profileKey e.eventStartsAt

-- part_002 lines 170-175 (`event.id` is always present in the typed model,
-- so the result is always some key)
def getPendingSlotKey (e : PendingEvent) : PendingId :=
  match e.slotKey with
  | some k => k
  | none =>
    match derivePendingSlotKey e with
    | some k => k
    | none => e.id

-- part_002 lines 177-188: a Set seeded with the primary key and the key of
-- the current `eventStartsAt`, in insertion order.
def getPendingSlotKeys (e : PendingEvent) : List PendingId :=
  let primary := getPendingSlotKey e
  match buildPendingEventId e.groupId e.profileKey e.eventStartsAt with
  | none => [primary]
  | some current => if primary = current then [primary] else [primary, current]

-- part_002 line 34
def ACTIVE_PENDING_STATUSES : List String := ["scheduled", "missed", "queued"]

-- part_002 lines 190-199
def hasActivePendingEvents (pending : List PendingEvent) (groupId profileKey : String) : Bool :=
  if groupId = "" ∨ profileKey = "" then false
  else pending.any (fun e =>
    decide (e.groupId = groupId) && decide (e.profileKey = profileKey) &&
    decide (e.status ∈ ACTIVE_PENDING_STATUSES))

-- part_002 lines 201-205 (returns the new pool and the removed count)
def clearDeletedEventsForProfile (deleted : List PendingEvent) (groupId profileKey : String) :
    List PendingEvent × Nat :=
  let kept := deleted.filter (fun e => !(decide (e.groupId = groupId) && decide (e.profileKey = profileKey)))
  (kept, deleted.length - kept.length)

def lookupProfileState (aps : List (String × ProfileState)) (key : String) :
    Option ProfileState :=
  (aps.find? (fun kv => decide (kv.1 = key))).map (fun kv => kv.2)

-- part_002 lines 207-215 (returns the new association list and whether an
-- entry was removed)
def clearProfileState (aps : List (String × ProfileState)) (groupId profileKey : String) :
    List (String × ProfileState) × Bool :=
  let key := getProfileStateKey groupId profileKey
  match lookupProfileState aps key with
  | some _ => (aps.filter (fun kv => !decide (kv.1 = key)), true)
  | none => (aps, false)

-- part_002 lines 59-73 (the typed model makes the `eventsCreated`
-- re-normalization a no-op)
def getOrCreateProfileState (aps : List (String × ProfileState)) (key : String) :
    List (String × ProfileState) × ProfileState :=
  match lookupProfileState aps key with
  | some ps => (aps, ps)
  | none => (aps ++ [(key, ⟨0, none, none, none⟩)], ⟨0, none, none, none⟩)

/-- Write a profile-state entry's `activationStartsAt` (the in-place
mutation `profileState.activationStartsAt = ...` followed by a save). -/
def setActivationStartsAt (aps : List (String × ProfileState)) (key : String) (ms : Int) :
    List (String × ProfileState) :=
  aps.map (fun kv => if kv.1 = key then (kv.1, { kv.2 with activationStartsAt := some ms }) else kv)

-- part_002 lines 217-219
def getActivationStartMs (ps : ProfileState) : Option Int :=
  parseEventStartMs ps.activationStartsAt

-- part_002 lines 221-235: note the `!ms` test, which also skips a parsed
-- value of exactly 0.
def getEarliestEventStartMs (events : List PendingEvent) : Option Int :=
  events.foldl
    (fun earliest e =>
      match (parseEventStartMs e.eventStartsAt).orElse (fun _ => pendingIdStartMs e.id) with
      | none => earliest
      | some ms =>
        if ms = 0 then earliest
        else
          match earliest with
          | none => some ms
          | some cur => if ms < cur then some ms else earliest)
    none

/-! ## Calendar model of the JavaScript `Date` (host timezone fixed to UTC) -/

/-- A broken-down JavaScript `Date` value: `month` is 0-based as in JS,
`msOfMinute` carries the seconds and milliseconds of the minute (publish
times are constructed with both set to 0). -/
structure JsDate where
  year : Int
  month : Int
  day : Int
  hour : Int
  minute : Int
  msOfMinute : Int
deriving DecidableEq

def isLeapYear (y : Int) : Bool :=
  (y % 4 = 0 && y % 100 ≠ 0) || y % 400 = 0

/-- Length of month `m` (0-based, already normalized to 0..11) of year `y`. -/
def daysInMonthCore (y m : Int) : Int :=
  if m = 1 then (if isLeapYear y then 29 else 28)
  else if m = 3 ∨ m = 5 ∨ m = 8 ∨ m = 10 then 30
  else 31

/-- Normalize a (year, 0-based month) pair as the `Date` constructor does. -/
def normYM (y m : Int) : Int × Int :=
  (y + Int.fdiv m 12, Int.emod m 12)

/-- Length of (possibly unnormalized) month `m` of year `y`.  The source
computes this as `new Date(y, m + 1, 0).getDate()` (day 0 of the next
month, i.e. the last day of month `m`). -/
def lastDayOfMonth (y m : Int) : Int :=
  daysInMonthCore (normYM y m).1 (normYM y m).2

/-- The `new Date(y, m, d, h, mi)` constructor / field-setter
normalization, for the day ranges the engine produces (1 ≤ d ≤ 31 plus a
single month overflow; JS iterates the overflow step, but with d ≤ 31 and
months of at least 28 days one step suffices). -/
def mkJsDate (y m d h mi ms : Int) : JsDate :=
  let ym := normYM y m
  let len := daysInMonthCore ym.1 ym.2
  if d > len then
    let ym2 := normYM ym.1 (ym.2 + 1)
    ⟨ym2.1, ym2.2, d - len, h, mi, ms⟩
  else ⟨ym.1, ym.2, d, h, mi, ms⟩

/-- `Date.prototype.setMonth` (keeps the day-of-month, rolling overflow
into the following month). -/
def jsSetMonth (dt : JsDate) (m : Int) : JsDate :=
  mkJsDate dt.year m dt.day dt.hour dt.minute dt.msOfMinute

/-- `Date.prototype.setDate`. -/
def jsSetDate (dt : JsDate) (d : Int) : JsDate :=
  mkJsDate dt.year dt.month d dt.hour dt.minute dt.msOfMinute

/-- Days from the civil epoch 1970-01-01 for a Gregorian date with `m` in
1..12 (Howard Hinnant's `days_from_civil`, with floor division so it is
valid for all years). -/
def daysFromCivil (y m d : Int) : Int :=
  let y2 := if m ≤ 2 then y - 1 else y
  let era := Int.fdiv y2 400
  let yoe := y2 - era * 400
  let mp := if m > 2 then m - 3 else m + 9
  let doy := Int.fdiv (153 * mp + 2) 5 + d - 1
  let doe := yoe * 365 + Int.fdiv yoe 4 - Int.fdiv yoe 100 + doy
  era * 146097 + doe - 719468

/-- Inverse of `daysFromCivil` (Hinnant's `civil_from_days`): year,
1-based month, day. -/
def civilFromDays (z0 : Int) : Int × Int × Int :=
  let z := z0 + 719468
  let era := Int.fdiv z 146097
  let doe := z - era * 146097
  let yoe := Int.fdiv (doe - Int.fdiv doe 1460 + Int.fdiv doe 36524 - Int.fdiv doe 146096) 365
  let y := yoe + era * 400
  let doy := doe - (365 * yoe + Int.fdiv yoe 4 - Int.fdiv yoe 100)
  let mp := Int.fdiv (5 * doy + 2) 153
  let d := doy - Int.fdiv (153 * mp + 2) 5 + 1
  let m := if mp < 10 then mp + 3 else mp - 9
  (if m ≤ 2 then y + 1 else y, m, d)

/-- `Date.prototype.getTime` of a normalized calendar value. -/
def toMs (dt : JsDate) : Int :=
  daysFromCivil dt.year (dt.month + 1) dt.day * 86400000 +
    dt.hour * 3600000 + dt.minute * 60000 + dt.msOfMinute

/-- Break a millisecond instant into its (UTC) calendar fields. -/
def msToJsDate (ms : Int) : JsDate :=
  let days := Int.fdiv ms 86400000
  let rem := ms - days * 86400000
  let c := civilFromDays days
  ⟨c.1, c.2.1 - 1, c.2.2, Int.fdiv rem 3600000,
    Int.fdiv (rem - Int.fdiv rem 3600000 * 3600000) 60000,
    rem - Int.fdiv rem 3600000 * 3600000 - Int.fdiv (rem - Int.fdiv rem 3600000 * 3600000) 60000 * 60000⟩

/-! ## Publish-time calculation (C4 of the spec) -/

-- The `before`-mode offset sum (part_002 lines 1816-1820 and 696-701).
def beforeOffsetMs (a : Automation) : Int :=
  a.daysOffset * 24 * 60 * 60 * 1000 +
    a.hoursOffset * 60 * 60 * 1000 +
    a.minutesOffset * 60 * 1000

/-- The monthly branch of the publish-time calculation
(part_002 lines 1822-1843; the same code is duplicated inline at
lines 740-769 of `calculatePendingEvents`).  `eventStartTime` is the
broken-down event start. -/
def monthlyPublishDate (eventStartTime : JsDate) (a : Automation) : JsDate :=
  let targetDay := jsOr a.monthlyDay 1
  let lastDay := lastDayOfMonth eventStartTime.year eventStartTime.month
  let publishDay := min targetDay lastDay
  let pub := mkJsDate eventStartTime.year eventStartTime.month publishDay
    (jsOr a.monthlyHour 12) a.monthlyMinute 0
  if toMs pub ≥ toMs eventStartTime then
    let pub2 := jsSetMonth pub (pub.month - 1)
    let prevMonthLastDay := lastDayOfMonth pub2.year pub2.month
    jsSetDate pub2 (min targetDay prevMonthLastDay)
  else pub

/-- The monthly publish instant as the specification describes it: clamp
the day into the event month; when the result is not strictly before the
event start, step exactly one calendar month earlier and reapply the
`min(monthlyDay, lastDayOfMonth)` clamp.  Written from the spec's words,
for comparison with the source's `monthlyPublishDate`. -/
def monthlyPublishDateSpec (eventStartTime : JsDate) (a : Automation) : JsDate :=
  let targetDay := jsOr a.monthlyDay 1
  let lastDay := lastDayOfMonth eventStartTime.year eventStartTime.month
  let pub : JsDate := ⟨eventStartTime.year, eventStartTime.month, min targetDay lastDay,
    jsOr a.monthlyHour 12, a.monthlyMinute, 0⟩
  if toMs pub ≥ toMs eventStartTime then
    let ym := normYM eventStartTime.year (eventStartTime.month - 1)
    let prevLast := daysInMonthCore ym.1 ym.2
    ⟨ym.1, ym.2, min targetDay prevLast, jsOr a.monthlyHour 12, a.monthlyMinute, 0⟩
  else pub

-- part_002 line 773 / 1855
def MIN_BUFFER_MS : Int := 30 * 60 * 1000

/-- The 30-minute hard cap (part_002 lines 772-777 and 1854-1859):
`publish = min(publish, start - 30 min)`, keeping a publish time exactly
at `start - 30 min` unchanged. -/
def cappedPublish (eventStartMs rawPublish : Int) : Int :=
  if rawPublish > eventStartMs - MIN_BUFFER_MS then eventStartMs - MIN_BUFFER_MS
  else rawPublish

/-- `calculatePublishTime(eventStartsAt, profile)`
(part_002 lines 1806-1862): before / monthly, with `after` falling back to
before-mode behaviour, followed by the 30-minute hard cap. -/
def calculatePublishTime (eventStartMs : Int) (profile : Option Profile) : Option Int :=
  match profile.bind (fun p => p.automation) with
  | none => none
  | some a =>
    if a.enabled = false then none
    else
      some (cappedPublish eventStartMs
        (if a.timingMode = "before" then eventStartMs - beforeOffsetMs a
         else if a.timingMode = "monthly" then toMs (monthlyPublishDate (msToJsDate eventStartMs) a)
         else eventStartMs - beforeOffsetMs a))

/-! ## Slot expansion into pending records (`calculatePendingEvents`) -/

/-- One iteration's publish-time computation of `calculatePendingEvents`
(part_002 lines 692-770): `acc` is `newPendingEvents` so far (for the
`after`-mode smart switch), `dOpt` the candidate event-start instant.
The floating midpoint comparison `publish > prev + (next - prev) / 2` is
modelled exactly as `2 * publish > prev + next`. -/
def calcPublishForOption (now : Int) (profile : Profile) (a : Automation)
    (ps : ProfileState) (acc : List PendingEvent) (dOpt : Int) : Int :=
  if a.timingMode = "before" then dOpt - beforeOffsetMs a
  else if a.timingMode = "after" then
    let offsetMs := beforeOffsetMs a
    let duration := jsOrOpt profile.duration 120 * 60 * 1000
    let raw :=
      match acc.getLast? with
      | none =>
        let lastSuccess := match ps.lastSuccess with | some t => t | none => now
        lastSuccess + duration + offsetMs
      | some prevEvent =>
        let prevEndTime := jsOrOpt prevEvent.eventStartsAt 0
        prevEndTime + duration + offsetMs
    let nextEventTime := dOpt
    let prevEventTime :=
      match acc.getLast? with
      | some prevEvent => jsOrOpt prevEvent.eventStartsAt 0
      | none => now
    if 2 * raw > prevEventTime + nextEventTime then dOpt - beforeOffsetMs a
    else raw
  else if a.timingMode = "monthly" then
    toMs (monthlyPublishDate (msToJsDate dOpt) a)
  else dOpt - beforeOffsetMs a

/-- The record object built at part_002 lines 784-798. -/
def mkPendingEvent (groupId profileKey : String) (publishMs startMs : Int) : PendingEvent :=
  let slotKey := buildPendingEventId groupId profileKey (some startMs)
  { id := match slotKey with | some k => k | none => .det groupId profileKey startMs,
    slotKey := slotKey,
    groupId := groupId, profileKey := profileKey,
    scheduledPublishTime := some publishMs,
    eventStartsAt := some startMs,
    manualOverrides := none, status := "scheduled", eventId := none,
    missedAt := none, queuedAt := none, deletedAt := none }

/-- The `for` loop of `calculatePendingEvents` (part_002 lines 679-801). -/
def calcPendingLoop (now : Int) (groupId profileKey : String) (profile : Profile)
    (a : Automation) (ps : ProfileState) (maxEvents : Nat) (minEventStartMs : Option Int) :
    List PendingEvent → List Int → List PendingEvent
  | acc, [] => acc
  | acc, dOpt :: rest =>
    if acc.length ≥ maxEvents then acc
    else if a.repeatMode = "count" ∧ ps.eventsCreated + acc.length + 1 > a.repeatCount then acc
    else if (match minEventStartMs with | some m => decide (dOpt ≤ m) | none => false) = true then
      calcPendingLoop now groupId profileKey profile a ps maxEvents minEventStartMs acc rest
    else
      if cappedPublish dOpt (calcPublishForOption now profile a ps acc dOpt) ≤ now then
        calcPendingLoop now groupId profileKey profile a ps maxEvents minEventStartMs acc rest
      else
        calcPendingLoop now groupId profileKey profile a ps maxEvents minEventStartMs
          (acc ++ [mkPendingEvent groupId profileKey
            (cappedPublish dOpt (calcPublishForOption now profile a ps acc dOpt)) dOpt]) rest

/-- `calculatePendingEvents(groupId, profileKey, profile, maxEvents,
options)` (part_002 lines 649-804).  `dateOptions` is the result of the
external `generateDateOptionsFromPatterns` expansion (its `iso` fields,
already parsed to milliseconds); `ps` is the profile state the source
obtains through `getOrCreateProfileState`. -/
def calculatePendingEvents (now : Int) (groupId profileKey : String)
    (profile : Option Profile) (ps : ProfileState) (maxEvents : Nat)
    (minEventStartMs : Option Int) (dateOptions : List Int) : List PendingEvent :=
  match profile with
  | none => []
  | some p =>
    match p.automation with
    | none => []
    | some a =>
      if a.enabled = false ∨ p.patterns = [] then []
      else if dateOptions = [] then []
      else if a.repeatMode = "count" ∧ ps.eventsCreated ≥ a.repeatCount then []
      else calcPendingLoop now groupId profileKey p a ps maxEvents minEventStartMs [] dateOptions

/-! ## Scheduler (C5 of the spec) -/

-- part_002 lines 806-820
def getRecheckIntervalMs (delayMs : Int) : Option Int :=
  let ONE_DAY_MS : Int := 24 * 60 * 60 * 1000
  let EIGHT_HOURS_MS : Int := 8 * 60 * 60 * 1000
  let TWO_HOURS_MS : Int := 2 * 60 * 60 * 1000
  if delayMs > 7 * ONE_DAY_MS then some ONE_DAY_MS
  else if delayMs > 2 * ONE_DAY_MS then some EIGHT_HOURS_MS
  else if delayMs > ONE_DAY_MS then some TWO_HOURS_MS
  else none

/-- What `scheduleJob` does with a record:
* `markMissed` — the record was flipped to `missed` (`missedAt` stamped),
  the store saved, `onMissedEvent` notified, and no timer was set;
* `recheck i` — a timeout of `i` ms was set that re-enters `scheduleJob`;
* `publishTimer d` — a timeout of exactly `d` ms was set whose firing
  calls `executeAutomatedPost`, i.e. enqueues the record for publishing. -/
inductive ScheduleOutcome where
  | markMissed
  | recheck (intervalMs : Int)
  | publishTimer (delayMs : Int)
deriving DecidableEq

/-- `scheduleJob(pendingEvent)` (part_002 lines 826-866) as the updated
record plus the action taken.  A record without a parseable
`scheduledPublishTime` would make the source compute `NaN` delays and is
outside the modelled domain (`none`). -/
def scheduleJob (now : Int) (e : PendingEvent) : Option (PendingEvent × ScheduleOutcome) :=
  match e.scheduledPublishTime with
  | none => none
  | some publishTime =>
    let delay := publishTime - now
    if delay ≤ 0 then
      some ({ e with status := "missed", missedAt := some now }, .markMissed)
    else
      match getRecheckIntervalMs delay with
      | some i => some (e, .recheck i)
      | none => some (e, .publishTimer delay)

/-! ## Rate-limit gate (C6 of the spec) -/

-- part_002 lines 30-32
def EVENT_HOURLY_LIMIT : Nat := 10
def EVENT_HOURLY_WINDOW_MS : Int := 60 * 60 * 1000
def BACKOFF_SEQUENCE : List Int := [2, 4, 8, 16, 32, 60]

/-- Per-group rate-limit state (part_002 lines 1019-1028). -/
structure RateLimitGroupState where
  history : List Int
  backoffIndex : Nat
  lockUntil : Option Int
deriving DecidableEq

-- part_002 lines 1034-1038
def pruneRateLimitHistory (now : Int) (st : RateLimitGroupState) : RateLimitGroupState :=
  { st with history := st.history.filter (fun ts => decide (ts ≥ now - EVENT_HOURLY_WINDOW_MS)) }

/-- `isGroupRateLimited(groupId)` (part_002 lines 1045-1062): returns the
answer together with the updated state (an expired lock is cleared and
resets the backoff index; the history is pruned). -/
def isGroupRateLimited (now : Int) (st : RateLimitGroupState) :
    Bool × RateLimitGroupState :=
  match st.lockUntil with
  | some t =>
    if now < t then (true, st)
    else
      let st1 := pruneRateLimitHistory now { st with lockUntil := none, backoffIndex := 0 }
      (st1.history.length ≥ EVENT_HOURLY_LIMIT, st1)
  | none =>
    let st1 := pruneRateLimitHistory now st
    (st1.history.length ≥ EVENT_HOURLY_LIMIT, st1)

-- part_002 lines 1095-1104
def recordEventCreation (now : Int) (st : RateLimitGroupState) : RateLimitGroupState :=
  let st1 := pruneRateLimitHistory now { st with history := st.history ++ [now] }
  { st1 with backoffIndex := 0 }

/-- `handleRateLimitError(groupId)` (part_002 lines 1110-1127).
`Math.min(...history)` of the (nonempty, since of length ≥ 10) pruned
history is its minimum. -/
def handleRateLimitError (now : Int) (st : RateLimitGroupState) : RateLimitGroupState :=
  let st1 := pruneRateLimitHistory now st
  if st1.history.length ≥ EVENT_HOURLY_LIMIT then
    { st1 with lockUntil := st1.history.min?.map (fun oldest => oldest + EVENT_HOURLY_WINDOW_MS) }
  else
    let backoffMinutes := BACKOFF_SEQUENCE.getD st1.backoffIndex 0
    { st1 with
      backoffIndex := min (st1.backoffIndex + 1) (BACKOFF_SEQUENCE.length - 1),
      lockUntil := some (now + backoffMinutes * 60 * 1000) }

/-! ## Manual-event anchor seeding -/

/-- `recordManualEvent(groupId, profileKey, eventStartsAt)`
(part_002 lines 1592-1614): returns the updated
`automationState.profiles` association list and the boolean result. -/
def recordManualEvent (knownGroupIds : Option (List String)) (groupId profileKey : String)
    (eventStartsAt : Option Int) (aps : List (String × ProfileState)) :
    List (String × ProfileState) × Bool :=
  if isKnownGroupId knownGroupIds groupId = false then (aps, false)
  else
    match parseEventStartMs eventStartsAt with
    | none => (aps, false)
    | some eventStartMs =>
      let key := getProfileStateKey groupId profileKey
      let r := getOrCreateProfileState aps key
      match getActivationStartMs r.2 with
      | some existingStartMs =>
        if existingStartMs ≤ eventStartMs then (r.1, false)
        else (setActivationStartsAt r.1 key eventStartMs, true)
      | none => (setActivationStartsAt r.1 key eventStartMs, true)

/-! ## Control actions on pending records -/

/-- Result of `handleMissedEvent`: `{ok:true}`, the cancel-shaped
`{ok:true, automationCleared, groupId, profileKey}`, or `{ok:false, error:{message}}`. -/
inductive HMResult where
  | ok
  | okCancel (automationCleared : Bool) (groupId profileKey : String)
  | err (msg : String)
deriving DecidableEq

/-- Externally visible side effects of the control actions: enqueueing a
record into the rate-limit queue (`executeAutomatedPost`), registering a
wall-clock timer (`scheduleJob`), clearing one (`cancelJob`). -/
inductive EngineEffect where
  | enqueuePost (id : PendingId)
  | scheduleTimer (id : PendingId)
  | cancelTimer (id : PendingId)
deriving DecidableEq

/-- Replace the first record with the given id (the in-place mutation of
the object returned by `find`/`findIndex`). -/
def replaceFirstById : List PendingEvent → PendingId → PendingEvent → List PendingEvent
  | [], _, _ => []
  | e :: rest, id, e2 => if e.id = id then e2 :: rest else e :: replaceFirstById rest id e2

/-- Remove the first record with the given id (the `splice(eventIndex, 1)`). -/
def removeFirstById : List PendingEvent → PendingId → List PendingEvent
  | [], _ => []
  | e :: rest, id => if e.id = id then rest else e :: removeFirstById rest id

/-- `handleMissedEvent(pendingEventId, action)` (part_002 lines 1357-1440).
Returns the updated store, the result object, and the emitted effects.
`none` marks the single corner outside the modelled domain: a
before-mode reschedule of a record without a parseable `eventStartsAt`
(the source would build an Invalid Date and throw in `toISOString`). -/
def handleMissedEvent (now : Int) (profiles : ProfilesMap) (st : EngineState)
    (pendingEventId : PendingId) (action : String) :
    Option (EngineState × HMResult × List EngineEffect) :=
  match st.pendingEvents.find? (fun e => decide (e.id = pendingEventId)) with
  | none => some (st, .err "Pending event not found", [])
  | some e =>
    if action = "postNow" then
      if e.status = "queued" then
        some (st, .err "Event is queued waiting for rate limits to clear. Please wait.", [])
      else
        let e2 := { e with status := "scheduled" }
        some ({ st with pendingEvents := replaceFirstById st.pendingEvents pendingEventId e2 },
          .ok, [.enqueuePost pendingEventId])
    else if action = "reschedule" then
      match (profiles e.groupId e.profileKey).bind (fun p => p.automation) with
      | none => some (st, .err "Profile not found or automation disabled", [])
      | some a =>
        if a.enabled = false then
          some (st, .err "Profile not found or automation disabled", [])
        else if a.timingMode = "before" then
          match e.eventStartsAt with
          | none => none
          | some startMs =>
            let raw := startMs - beforeOffsetMs a
            let newPublishTime := if raw ≤ now then now + 5 * 60 * 1000 else raw
            let e2 := { e with scheduledPublishTime := some newPublishTime,
                               status := "scheduled", missedAt := none }
            some ({ st with pendingEvents := replaceFirstById st.pendingEvents pendingEventId e2 },
              .ok, [.scheduleTimer pendingEventId])
        else
          let newPublishTime := now + 5 * 60 * 1000
          let e2 := { e with scheduledPublishTime := some newPublishTime,
                             status := "scheduled", missedAt := none }
          some ({ st with pendingEvents := replaceFirstById st.pendingEvents pendingEventId e2 },
            .ok, [.scheduleTimer pendingEventId])
    else if action = "cancel" then
      let pending2 := removeFirstById st.pendingEvents pendingEventId
      let deletedEvent := { e with status := "deleted", deletedAt := some now }
      let deleted2 := st.deletedEvents ++ [deletedEvent]
      if hasActivePendingEvents pending2 e.groupId e.profileKey = false then
        let cleared := clearDeletedEventsForProfile deleted2 e.groupId e.profileKey
        let stateCleared := clearProfileState st.automationProfiles e.groupId e.profileKey
        let automationCleared := cleared.2 > 0 ∨ stateCleared.2 = true
        some ({ pendingEvents := pending2, deletedEvents := cleared.1,
                automationProfiles := stateCleared.1 },
          .okCancel (decide automationCleared) e.groupId e.profileKey,
          [.cancelTimer pendingEventId])
      else
        some ({ st with pendingEvents := pending2, deletedEvents := deleted2 },
          .okCancel false e.groupId e.profileKey, [.cancelTimer pendingEventId])
    else some (st, .err "Unknown action", [])

/-- Result object of `updatePendingEventOverrides`. -/
inductive UpdResult where
  | ok
  | err (msg : String)
deriving DecidableEq

/-- `updatePendingEventOverrides(pendingEventId, overrides)`
(part_002 lines 1621-1691).  `none` marks the corner outside the modelled
domain: a non-before-mode recompute whose previous start or previous
publish time is missing (NaN arithmetic ending in a thrown
`toISOString`). -/
def updatePendingEventOverrides (now : Int) (profiles : ProfilesMap) (st : EngineState)
    (pendingEventId : PendingId) (overrides : Option Overrides) :
    Option (EngineState × UpdResult) :=
  match st.pendingEvents.find? (fun e => decide (e.id = pendingEventId)) with
  | none => some (st, .err "Pending event not found")
  | some e =>
    let previousEventStartsAt := e.eventStartsAt
    let e1 :=
      if e.slotKey = none then
        match derivePendingSlotKey e with
        | some k => { e with slotKey := some k }
        | none => e
      else e
    let e2 := { e1 with manualOverrides := overrides }
    let e3 :=
      match overrides.bind (fun o => o.eventStartsAt) with
      | some s => { e2 with eventStartsAt := some s }
      | none => e2
    match overrides.bind (fun o => o.eventStartsAt) with
    | some s =>
      if some s ≠ previousEventStartsAt then
        match (profiles e.groupId e.profileKey).bind (fun p => p.automation) with
        | some a =>
          if a.enabled then
            let newPub : Option Int :=
              if a.timingMode = "before" then some (s - beforeOffsetMs a)
              else
                match previousEventStartsAt, e.scheduledPublishTime with
                | some oldStart, some oldPublish => some (s + (oldPublish - oldStart))
                | _, _ => none
            match newPub with
            | none => none
            | some np =>
              let e4 := { e3 with scheduledPublishTime := some np }
              let e5 :=
                if np ≤ now then { e4 with status := "missed", missedAt := some now }
                else if e4.status = "missed" then { e4 with status := "scheduled", missedAt := none }
                else e4
              some ({ st with pendingEvents := replaceFirstById st.pendingEvents pendingEventId e5 }, .ok)
          else
            some ({ st with pendingEvents := replaceFirstById st.pendingEvents pendingEventId e3 }, .ok)
        | none =>
          some ({ st with pendingEvents := replaceFirstById st.pendingEvents pendingEventId e3 }, .ok)
      else
        some ({ st with pendingEvents := replaceFirstById st.pendingEvents pendingEventId e3 }, .ok)
    | none =>
      some ({ st with pendingEvents := replaceFirstById st.pendingEvents pendingEventId e3 }, .ok)

/-! ## Publish worker: the success branch -/

/-- The state update of `executeAutomatedPostInternal` when the external
publish succeeds (part_002 lines 1274-1296): the record is stamped
`published` with its `eventId`, and the profile state gets
`eventsCreated + 1`, `lastSuccess`, `lastEventId`, and — only when no
anchor exists yet — `activationStartsAt` set to this record's
`eventStartsAt`. -/
def applyPublishSuccess (now : Int) (resultEventId : Option String)
    (e : PendingEvent) (ps : ProfileState) : PendingEvent × ProfileState :=
  let e2 := { e with
    eventId := (resultEventId.orElse (fun _ => e.eventId)),
    status := "published" }
  let ps2 := { ps with eventsCreated := ps.eventsCreated + 1 }
  let ps3 :=
    match getActivationStartMs ps2, e.eventStartsAt with
    | none, some startMs => { ps2 with activationStartsAt := some startMs }
    | _, _ => ps2
  (e2, { ps3 with lastSuccess := some now, lastEventId := resultEventId })

/-! ## Reconciliation against the remote upcoming-event list -/

/-- The title computed by `resolveEventDetails` for a given record
(part_002 lines 953-1011, projected to the `title` field, which is all
`reconcilePublishedEvents` reads): `profile.name || "Untitled Event"`,
overridden by a non-null `manualOverrides.title`. -/
def titleFromEvent (profiles : ProfilesMap) (e : PendingEvent) : Option String :=
  match profiles e.groupId e.profileKey with
  | none => none
  | some profile =>
    let base := match profile.name with | some n => n | none => "Untitled Event"
    some (match e.manualOverrides.bind (fun o => o.title) with
          | some t => t
          | none => base)

/-- `resolveEventDetails(pendingEventId).title`: the record is looked up
by id in the (pre-filter) pending array. -/
def resolveEventTitle (profiles : ProfilesMap) (pending : List PendingEvent)
    (pendingEventId : PendingId) : Option String :=
  match pending.find? (fun e => decide (e.id = pendingEventId)) with
  | none => none
  | some e => titleFromEvent profiles e

/-- `event?.startsAtUtc || event?.eventStartsAt || null` of a remote event. -/
def remoteStart (r : RemoteEvent) : Option Int :=
  r.startsAtUtc.orElse (fun _ => r.eventStartsAt)

/-- The `eventIds` set (part_002 line 1701). -/
def reconcileEventIds (upcoming : List RemoteEvent) : List String :=
  upcoming.filterMap (fun r => r.id)

/-- The `eventsByStart` bucket for one start value, in list order
(part_002 lines 1702-1711). -/
def candidatesFor (upcoming : List RemoteEvent) (s : Int) : List RemoteEvent :=
  upcoming.filter (fun r => decide (remoteStart r = some s))

/-- One record's fate inside the `pendingEvents.filter` of
`reconcilePublishedEvents` (part_002 lines 1716-1759): `none` means the
record is dropped; `some (e', b)` keeps the (possibly
`eventId`-updated) record, `b` flagging an `updated += 1` increment.
`store` is the pending array the filter runs over (used by the title
lookup). -/
def reconcileStep (profiles : ProfilesMap) (store : List PendingEvent)
    (eventIds : List String) (upcoming : List RemoteEvent) (groupId : String)
    (e : PendingEvent) : Option (PendingEvent × Bool) :=
  if e.groupId ≠ groupId ∨ e.status ≠ "published" then some (e, false)
  else
    match e.eventId with
    | some eid => if eid ∈ eventIds then some (e, false) else none
    | none =>
      match e.eventStartsAt with
      | none => some (e, false)
      | some startKey =>
        match candidatesFor upcoming startKey with
        | [] => none
        | [c] => some ({ e with eventId := c.id }, c.id.isSome)
        | cs =>
          match resolveEventTitle profiles store e.id with
          | none => none
          | some expectedTitle =>
            match cs.filter (fun c => decide (c.title = some expectedTitle)) with
            | [m] => some ({ e with eventId := m.id }, m.id.isSome)
            | _ => none

/-- The filter loop with its `removed` / `updated` counters. -/
def reconcileGo (profiles : ProfilesMap) (store : List PendingEvent)
    (eventIds : List String) (upcoming : List RemoteEvent) (groupId : String) :
    List PendingEvent → List PendingEvent × Nat × Nat
  | [] => ([], 0, 0)
  | e :: rest =>
    let r := reconcileGo profiles store eventIds upcoming groupId rest
    match reconcileStep profiles store eventIds upcoming groupId e with
    | none => (r.1, r.2.1 + 1, r.2.2)
    | some (e2, b) => (e2 :: r.1, r.2.1, if b then r.2.2 + 1 else r.2.2)

/-- Result object of `reconcilePublishedEvents`. -/
inductive ReconcileResult where
  | ok (removed updated : Nat)
  | err (msg : String)
deriving DecidableEq

/-- `reconcilePublishedEvents(groupId, upcomingEvents)`
(part_002 lines 1693-1766): the new `pendingEvents` array plus the result
object.  In the typed model `upcomingEvents` is always an array, so only
the missing-groupId error remains. -/
def reconcilePublishedEvents (profiles : ProfilesMap) (pending : List PendingEvent)
    (groupId : String) (upcoming : List RemoteEvent) :
    List PendingEvent × ReconcileResult :=
  if groupId = "" then (pending, .err "Missing groupId")
  else
    let r := reconcileGo profiles pending (reconcileEventIds upcoming) upcoming groupId pending
    (r.1, .ok r.2.1 r.2.2)

/-! ## Restoring soft-deleted records -/

/-- Result object of `restoreDeletedEvents`. -/
inductive RestoreResult where
  | ok (restoredCount : Nat)
  | err (msg : String)
deriving DecidableEq

/-- Does this record belong to the profile (the
`e.groupId === groupId && e.profileKey === profileKey` filters)? -/
def matchesProfile (groupId profileKey : String) (e : PendingEvent) : Bool :=
  decide (e.groupId = groupId) && decide (e.profileKey = profileKey)

/-- Slot keys of the profile's manually modified pending records
(part_002 lines 1887-1892). -/
def modifiedEventSlots (existing : List PendingEvent) : List PendingId :=
  (existing.filter (fun e => e.manualOverrides.isSome)).flatMap getPendingSlotKeys

/-- Slot keys of the profile's published pending records
(part_002 lines 1893-1898). -/
def publishedEventSlots (existing : List PendingEvent) : List PendingId :=
  (existing.filter (fun e => decide (e.status = "published"))).flatMap getPendingSlotKeys

/-- One deleted entry's fate inside the restore loop
(part_002 lines 1912-1969): `none` skips it, `some e'` restores it as
`e'` (and removes the entry from the deleted pool). -/
def restoreStep (nowMs : Int) (profile : Profile) (groupId profileKey : String)
    (anchorMs : Option Int) (modified published : List PendingId)
    (e : PendingEvent) : Option PendingEvent :=
  let eventSlotKeys := getPendingSlotKeys e
  if eventSlotKeys.any (fun k => decide (k ∈ modified)) then none
  else if eventSlotKeys.any (fun k => decide (k ∈ published)) then none
  else
    match getRestoreStartMs e with
    | none => none
    | some restoreStartMs =>
      if restoreStartMs ≤ nowMs then none
      else if (match anchorMs with | some am => decide (restoreStartMs ≤ am) | none => false) = true then none
      else
        match calculatePublishTime restoreStartMs (some profile) with
        | none => none
        | some newPublishTime =>
          if newPublishTime ≤ nowMs then none
          else
            let hasOverrides :=
              match e.manualOverrides with
              | some o => o.title.isSome || o.eventStartsAt.isSome ||
                  o.durationMinutes.isSome || o.timezone.isSome
              | none => false
            let useOverrides := hasOverrides = true ∧ e.eventStartsAt = some restoreStartMs
            let slotKey := buildPendingEventId groupId profileKey (some restoreStartMs)
            if useOverrides then
              some { e with scheduledPublishTime := some newPublishTime,
                            status := "scheduled", missedAt := none,
                            eventStartsAt :=
                              match e.eventStartsAt with
                              | none => some restoreStartMs
                              | some v => some v,
                            deletedAt := none, queuedAt := none }
            else
              some { id := match slotKey with | some k => k | none => e.id,
                     slotKey := slotKey.orElse (fun _ => e.slotKey),
                     groupId := groupId, profileKey := profileKey,
                     scheduledPublishTime := some newPublishTime,
                     eventStartsAt := some restoreStartMs,
                     manualOverrides := none, status := "scheduled", eventId := none,
                     missedAt := none, queuedAt := none, deletedAt := none }

/-- The restore loop: restored records in order, together with the
original entries to remove from the deleted pool. -/
def restoreLoop (nowMs : Int) (profile : Profile) (groupId profileKey : String)
    (anchorMs : Option Int) (modified published : List PendingId) :
    List PendingEvent → List PendingEvent × List PendingEvent
  | [] => ([], [])
  | e :: rest =>
    let r := restoreLoop nowMs profile groupId profileKey anchorMs modified published rest
    match restoreStep nowMs profile groupId profileKey anchorMs modified published e with
    | none => r
    | some e2 => (e2 :: r.1, e :: r.2)

/-- `restoreDeletedEvents(groupId, profileKey)`
(part_002 lines 1870-1983).  Timer registrations (`scheduleJob`) are not
part of the store and are omitted here. -/
def restoreDeletedEvents (nowMs : Int) (profiles : ProfilesMap) (st : EngineState)
    (groupId profileKey : String) : EngineState × RestoreResult :=
  let deletedForProfile := st.deletedEvents.filter (matchesProfile groupId profileKey)
  if deletedForProfile = [] then (st, .ok 0)
  else
    match profiles groupId profileKey with
    | none => (st, .err "Profile not found")
    | some profile =>
      let key := getProfileStateKey groupId profileKey
      let r0 := getOrCreateProfileState st.automationProfiles key
      let existingEvents := st.pendingEvents.filter (matchesProfile groupId profileKey)
      let modified := modifiedEventSlots existingEvents
      let published := publishedEventSlots existingEvents
      let anchorPair :=
        match getActivationStartMs r0.2 with
        | some a => (r0.1, some a)
        | none =>
          match (getEarliestEventStartMs existingEvents).orElse
              (fun _ => getEarliestEventStartMs deletedForProfile) with
          | some m => (setActivationStartsAt r0.1 key m, some m)
          | none => (r0.1, (none : Option Int))
      let looped := restoreLoop nowMs profile groupId profileKey anchorPair.2
        modified published deletedForProfile
      ({ pendingEvents := st.pendingEvents ++ looped.1,
         deletedEvents := looped.2.foldl (fun l e => l.erase e) st.deletedEvents,
         automationProfiles := anchorPair.1 },
       .ok looped.1.length)

/-! ## The slot-key wire format (string level) -/

/-- `String.prototype.split(sep)` for a one-character separator, on the
character list. -/
def splitOnChar (c : Char) : List Char → List (List Char)
  | [] => [[]]
  | x :: xs =>
    let r := splitOnChar c xs
    if x = c then [] :: r
    else
      match r with
      | h :: t => (x :: h) :: t
      | [] => [[x]]

/-- Value of a digit run (most significant first). -/
def digitsVal (l : List Char) : Nat :=
  l.foldl (fun n c => n * 10 + (c.toNat - 48)) 0

/-- The finite values of JavaScript `Number(...)` on an unsigned decimal
token: `digits`, `digits.digits?` or `.digits`.  This is a restricted
model of the ECMAScript `ToNumber` string grammar — exponent, hexadecimal
and `Infinity` forms (none of which occur in slot ids) are mapped to
`none` like any other non-finite or non-numeric token. -/
def parseUnsignedDec (l : List Char) : Option ℚ :=
  match splitOnChar '.' l with
  | [ip] => if ip ≠ [] ∧ ip.all Char.isDigit then some ((digitsVal ip : ℚ)) else none
  | [ip, fp] =>
    if (ip ≠ [] ∨ fp ≠ []) ∧ ip.all Char.isDigit ∧ fp.all Char.isDigit then
      some ((digitsVal ip : ℚ) + (digitsVal fp : ℚ) / (10 : ℚ) ^ fp.length)
    else none
  | _ => none

/-- Finite results of JavaScript `Number(string)` (restricted model, see
`parseUnsignedDec`; surrounding whitespace, which cannot occur in slot
ids, is not modelled).  `Number("") = 0`; a leading sign is honoured;
`none` stands for `NaN` / `Infinity`, i.e. a value failing
`Number.isFinite`. -/
def jsNumFinite (l : List Char) : Option ℚ :=
  if l = [] then some 0
  else
    match l with
    | '+' :: r => parseUnsignedDec r
    | '-' :: r => (parseUnsignedDec r).map (fun q => -q)
    | _ => parseUnsignedDec l

/-- `parsePendingEventIdStartMs(value)` (part_002 lines 121-129) on the
character list of the id: `String(value).split("_")`, take the last
token, return `Number(last)` when finite. -/
def parseIdStartMsList (l : List Char) : Option ℚ :=
  if l = [] then none
  else jsNumFinite ((splitOnChar '_' l).getLastD [])

/-- `parsePendingEventIdStartMs(value)` (part_002 lines 121-129) for a
string id.  The `!value` guard makes the empty string (and a missing
value) return `null`. -/
def parsePendingEventIdStartMs (s : String) : Option ℚ :=
  parseIdStartMsList s.toList

/-- A token that is a signed decimal integer — the reading of the spec's
"parseable as a signed integer millisecond timestamp".  Written from the
spec's words, for comparison with the source's parser. -/
def signedIntTokenVal (l : List Char) : Option Int :=
  match l with
  | '+' :: r => if r ≠ [] ∧ r.all Char.isDigit then some ((digitsVal r : Int)) else none
  | '-' :: r => if r ≠ [] ∧ r.all Char.isDigit then some (-(digitsVal r : Int)) else none
  | _ => if l ≠ [] ∧ l.all Char.isDigit then some ((digitsVal l : Int)) else none

/-! ## Theorems -/

/-- Claim C6: for every scheduled record, `scheduleJob` acts on the
remaining delay `publish - now` as follows: a nonpositive delay marks the
record `missed` (persisted and notified, no timer); a delay above 7 days
sets a 24-hour recheck timer that re-enters the scheduler; above 2 days an
8-hour recheck; above 1 day a 2-hour recheck; and a delay of at most 1 day
sets a timer for exactly that delay whose firing enqueues the record for
publishing. -/
theorem scheduleJob_recheck_ladder (now : Int) (e : PendingEvent) (publishTime : Int)
    (hp : e.scheduledPublishTime = some publishTime) :
    (publishTime - now ≤ 0 →
      scheduleJob now e =
        some ({ e with status := "missed", missedAt := some now }, .markMissed)) ∧
    (publishTime - now > 7 * 86400000 →
      scheduleJob now e = some (e, .recheck 86400000)) ∧
    (2 * 86400000 < publishTime - now ∧ publishTime - now ≤ 7 * 86400000 →
      scheduleJob now e = some (e, .recheck 28800000)) ∧
    (86400000 < publishTime - now ∧ publishTime - now ≤ 2 * 86400000 →
      scheduleJob now e = some (e, .recheck 7200000)) ∧
    (0 < publishTime - now ∧ publishTime - now ≤ 86400000 →
      scheduleJob now e = some (e, .publishTimer (publishTime - now))) := by
  unfold scheduleJob getRecheckIntervalMs
  rw [hp]
  refine ⟨fun h => ?_, fun h => ?_, fun h => ?_, fun h => ?_, fun h => ?_⟩ <;>
    · simp only
      split_ifs <;> first | rfl | omega

/-- A concrete scheduled record used to instantiate the C6 theorem. -/
def c6Event : PendingEvent :=
  { id := .det "g" "p" 1000000000, slotKey := some (.det "g" "p" 1000000000),
    groupId := "g", profileKey := "p",
    scheduledPublishTime := some 900000000, eventStartsAt := some 1000000000,
    manualOverrides := none, status := "scheduled", eventId := none,
    missedAt := none, queuedAt := none, deletedAt := none }

/-- Witness for C6: the ladder evaluated at concrete delays (0 ms →
missed; 900000000 ms ≈ 10.4 days → 24-hour recheck; 43200000 ms = 12 h →
an exact publish timer). -/
theorem scheduleJob_recheck_ladder_witness :
    scheduleJob 900000000 c6Event =
      some ({ c6Event with status := "missed", missedAt := some 900000000 }, .markMissed) ∧
    scheduleJob 0 c6Event = some (c6Event, .recheck 86400000) ∧
    scheduleJob 856800000 c6Event = some (c6Event, .publishTimer 43200000) := by
  refine ⟨?_, ?_, ?_⟩
  · exact (scheduleJob_recheck_ladder 900000000 c6Event 900000000 rfl).1 (by norm_num)
  · exact (scheduleJob_recheck_ladder 0 c6Event 900000000 rfl).2.1 (by norm_num)
  · have h := (scheduleJob_recheck_ladder 856800000 c6Event 900000000 rfl).2.2.2.2
      (by norm_num)
    simpa using h

/-- Claim C5: on a rate-limit signal, if the pruned in-window success
history already holds at least 10 timestamps the lock is set to the oldest
in-window timestamp plus one hour; otherwise the lock is set
`BACKOFF_SEQUENCE[backoffIndex]` minutes into the future and the index
advances while staying within `[0, 5]`; the index resets to 0 on every
successful publish and when an expired lock is observed. -/
theorem handleRateLimitError_policy (now : Int) (st : RateLimitGroupState)
    (hidx : st.backoffIndex ≤ 5) :
    ((pruneRateLimitHistory now st).history.length ≥ 10 →
      ∀ m, (pruneRateLimitHistory now st).history.min? = some m →
        handleRateLimitError now st =
          { pruneRateLimitHistory now st with lockUntil := some (m + 3600000) }) ∧
    ((pruneRateLimitHistory now st).history.length < 10 →
      (handleRateLimitError now st).lockUntil =
          some (now + BACKOFF_SEQUENCE.getD st.backoffIndex 0 * 60 * 1000) ∧
      (handleRateLimitError now st).backoffIndex = min (st.backoffIndex + 1) 5 ∧
      (handleRateLimitError now st).backoffIndex ≤ 5) ∧
    ((recordEventCreation now st).backoffIndex = 0) ∧
    (∀ t, st.lockUntil = some t → t ≤ now →
      (isGroupRateLimited now st).2.backoffIndex = 0 ∧
      (isGroupRateLimited now st).2.lockUntil = none) := by
  have hbi : (pruneRateLimitHistory now st).backoffIndex = st.backoffIndex := rfl
  refine ⟨fun hlen m hm => ?_, fun hlen => ?_, rfl, fun t hlock hle => ?_⟩
  · unfold handleRateLimitError
    simp only [EVENT_HOURLY_LIMIT, EVENT_HOURLY_WINDOW_MS]
    rw [if_pos (by omega), hm]
    rfl
  · unfold handleRateLimitError
    simp only [EVENT_HOURLY_LIMIT]
    rw [if_neg (by omega)]
    refine ⟨rfl, ?_, ?_⟩
    · show min (st.backoffIndex + 1) (BACKOFF_SEQUENCE.length - 1) = min (st.backoffIndex + 1) 5
      norm_num [BACKOFF_SEQUENCE]
    · show min (st.backoffIndex + 1) (BACKOFF_SEQUENCE.length - 1) ≤ 5
      have hl : BACKOFF_SEQUENCE.length = 6 := rfl
      omega
  · unfold isGroupRateLimited
    rw [hlock]
    have hnlt : ¬ now < t := by omega
    simp [hnlt]
    exact ⟨rfl, rfl⟩

/-- Concrete rate-limit states used to instantiate the C5 theorem. -/
def c5StateFull : RateLimitGroupState :=
  ⟨[100, 200, 300, 400, 500, 600, 700, 800, 900, 1000], 0, none⟩

def c5StateShort : RateLimitGroupState := ⟨[100], 2, none⟩

def c5StateLocked : RateLimitGroupState := ⟨[], 4, some 50⟩

/-- Witness for C5: a full window locks until the oldest success plus one
hour; a short history locks for `BACKOFF_SEQUENCE[2] = 8` minutes and
advances the index to 3; a success and an expired lock reset the index. -/
theorem handleRateLimitError_policy_witness :
    handleRateLimitError 3600000 c5StateFull =
      { pruneRateLimitHistory 3600000 c5StateFull with lockUntil := some (100 + 3600000) } ∧
    (handleRateLimitError 3600000 c5StateShort).lockUntil =
      some (3600000 + BACKOFF_SEQUENCE.getD 2 0 * 60 * 1000) ∧
    (handleRateLimitError 3600000 c5StateShort).backoffIndex = min 3 5 ∧
    (recordEventCreation 3600000 c5StateShort).backoffIndex = 0 ∧
    (isGroupRateLimited 3600000 c5StateLocked).2.backoffIndex = 0 ∧
    (isGroupRateLimited 3600000 c5StateLocked).2.lockUntil = none := by
  refine ⟨?_, ?_, ?_, ?_, ?_, ?_⟩
  · exact (handleRateLimitError_policy 3600000 c5StateFull (by decide)).1 (by decide) 100 (by decide)
  · exact ((handleRateLimitError_policy 3600000 c5StateShort (by decide)).2.1 (by decide)).1
  · exact ((handleRateLimitError_policy 3600000 c5StateShort (by decide)).2.1 (by decide)).2.1
  · exact (handleRateLimitError_policy 3600000 c5StateShort (by decide)).2.2.1
  · exact ((handleRateLimitError_policy 3600000 c5StateLocked (by decide)).2.2.2 50 rfl
      (by norm_num)).1
  · exact ((handleRateLimitError_policy 3600000 c5StateLocked (by decide)).2.2.2 50 rfl
      (by norm_num)).2

theorem lookup_setActivation (aps : List (String × ProfileState)) (key : String) (ms : Int) :
    lookupProfileState (setActivationStartsAt aps key ms) key =
      (lookupProfileState aps key).map
        (fun ps => { ps with activationStartsAt := some ms }) := by
  induction aps with
  | nil => rfl
  | cons kv rest ih =>
    by_cases h : kv.1 = key
    · unfold lookupProfileState setActivationStartsAt
      rw [List.map_cons, if_pos h, List.find?_cons_of_pos _ (by simp [h]),
        List.find?_cons_of_pos _ (by simp [h])]
      rfl
    · unfold lookupProfileState setActivationStartsAt at ih ⊢
      rw [List.map_cons, if_neg h, List.find?_cons_of_neg _ (by simp [h]),
        List.find?_cons_of_neg _ (by simp [h])]
      exact ih

theorem lookup_append_single (aps : List (String × ProfileState)) (key : String)
    (v : ProfileState) (h : lookupProfileState aps key = none) :
    lookupProfileState (aps ++ [(key, v)]) key = some v := by
  induction aps with
  | nil =>
    unfold lookupProfileState
    simp
  | cons kv rest ih =>
    by_cases hk : kv.1 = key
    · exfalso
      unfold lookupProfileState at h
      rw [List.find?_cons_of_pos _ (by simp [hk])] at h
      simp at h
    · unfold lookupProfileState at h ⊢
      rw [List.cons_append, List.find?_cons_of_neg _ (by simp [hk])]
      rw [List.find?_cons_of_neg _ (by simp [hk])] at h
      exact ih h

/-- Claim C7: `recordManualEvent` never increases `activationStartsAt`:
the anchor is overwritten with the given start only when no anchor exists
or the start strictly precedes the current anchor; otherwise the call
returns `false` and leaves the automation state unchanged. -/
theorem recordManualEvent_anchor_monotone (known : Option (List String)) (g p : String)
    (t : Int) (aps : List (String × ProfileState))
    (hk : isKnownGroupId known g = true) :
    ((lookupProfileState aps (getProfileStateKey g p)).bind
        (fun ps => ps.activationStartsAt) = none →
      (recordManualEvent known g p (some t) aps).2 = true ∧
      (lookupProfileState (recordManualEvent known g p (some t) aps).1
          (getProfileStateKey g p)).bind (fun ps => ps.activationStartsAt) = some t) ∧
    (∀ a, (lookupProfileState aps (getProfileStateKey g p)).bind
        (fun ps => ps.activationStartsAt) = some a → t < a →
      (recordManualEvent known g p (some t) aps).2 = true ∧
      (lookupProfileState (recordManualEvent known g p (some t) aps).1
          (getProfileStateKey g p)).bind (fun ps => ps.activationStartsAt) = some t) ∧
    (∀ a, (lookupProfileState aps (getProfileStateKey g p)).bind
        (fun ps => ps.activationStartsAt) = some a → a ≤ t →
      (recordManualEvent known g p (some t) aps).2 = false ∧
      (recordManualEvent known g p (some t) aps).1 = aps) ∧
    (∀ a, (lookupProfileState aps (getProfileStateKey g p)).bind
        (fun ps => ps.activationStartsAt) = some a →
      ∃ b, (lookupProfileState (recordManualEvent known g p (some t) aps).1
          (getProfileStateKey g p)).bind (fun ps => ps.activationStartsAt) = some b ∧
        b ≤ a) := by
  unfold recordManualEvent
  rw [hk]
  simp only [Bool.true_eq_false, if_false, parseEventStartMs]
  rcases hl : lookupProfileState aps (getProfileStateKey g p) with _ | ps
  · refine ⟨fun _ => ?_, fun a ha => ?_, fun a ha => ?_, fun a ha => ?_⟩
    · constructor
      · simp [getOrCreateProfileState, hl, getActivationStartMs, parseEventStartMs]
      · simp only [getOrCreateProfileState, hl, getActivationStartMs, parseEventStartMs]
        rw [lookup_setActivation, lookup_append_single aps _ _ hl]
        rfl
    all_goals simp [hl] at ha
  · rcases hanc : ps.activationStartsAt with _ | a0
    · refine ⟨fun _ => ?_, fun a ha => ?_, fun a ha => ?_, fun a ha => ?_⟩
      · constructor
        · simp [getOrCreateProfileState, hl, getActivationStartMs, parseEventStartMs, hanc]
        · simp only [getOrCreateProfileState, hl, getActivationStartMs, parseEventStartMs, hanc]
          rw [lookup_setActivation, hl]
          rfl
      all_goals simp [hl, hanc] at ha
    · simp only [getOrCreateProfileState, hl, getActivationStartMs, parseEventStartMs, hanc]
      refine ⟨fun hno => ?_, fun a ha => ?_, fun a ha => ?_, fun a ha => ?_⟩
      · simp [hl, hanc] at hno
      · simp only [Option.some_bind, hanc, Option.some_inj] at ha
        subst ha
        intro hlt
        rw [if_neg (by omega)]
        constructor
        · rfl
        · rw [lookup_setActivation, hl]
          rfl
      · simp only [Option.some_bind, hanc, Option.some_inj] at ha
        subst ha
        intro hle
        rw [if_pos hle]
        exact ⟨rfl, rfl⟩
      · simp only [Option.some_bind, hanc, Option.some_inj] at ha
        subst ha
        by_cases hc : a0 ≤ t
        · rw [if_pos hc]
          exact ⟨a0, by simp [hl, hanc], le_refl a0⟩
        · rw [if_neg hc]
          refine ⟨t, ?_, by omega⟩
          rw [lookup_setActivation, hl]
          rfl

/-- A concrete automation state used to instantiate the C7 theorem. -/
def c7Aps : List (String × ProfileState) := [("g::p", ⟨2, some 5000, none, none⟩)]

/-- Witness for C7: with the anchor at 5000, seeding at 3000 advances the
anchor backwards and returns `true`; seeding at 7000 returns `false` and
leaves the state unchanged. -/
theorem recordManualEvent_anchor_monotone_witness :
    ((recordManualEvent none "g" "p" (some 3000) c7Aps).2 = true ∧
      (lookupProfileState (recordManualEvent none "g" "p" (some 3000) c7Aps).1
          (getProfileStateKey "g" "p")).bind (fun ps => ps.activationStartsAt) = some 3000) ∧
    ((recordManualEvent none "g" "p" (some 7000) c7Aps).2 = false ∧
      (recordManualEvent none "g" "p" (some 7000) c7Aps).1 = c7Aps) := by
  constructor
  · exact (recordManualEvent_anchor_monotone none "g" "p" 3000 c7Aps rfl).2.1 5000
      (by decide) (by norm_num)
  · exact (recordManualEvent_anchor_monotone none "g" "p" 7000 c7Aps rfl).2.2.1 5000
      (by decide) (by norm_num)

/-- Claim C10: when a profile has no entries in the deleted pool,
`restoreDeletedEvents` returns `{ok:true, restoredCount:0}` and leaves the
state unchanged — even when the profile itself does not exist; the
`Profile not found` error is returned exactly when the profile is missing
while at least one deleted entry exists. -/
theorem restoreDeletedEvents_empty_pool (nowMs : Int) (profiles : ProfilesMap)
    (st : EngineState) (g p : String) :
    (st.deletedEvents.filter (matchesProfile g p) = [] →
      restoreDeletedEvents nowMs profiles st g p = (st, .ok 0)) ∧
    (restoreDeletedEvents nowMs profiles st g p = (st, .err "Profile not found") ↔
      st.deletedEvents.filter (matchesProfile g p) ≠ [] ∧ profiles g p = none) := by
  constructor
  · intro h
    unfold restoreDeletedEvents
    rw [if_pos h]
  · unfold restoreDeletedEvents
    by_cases h : st.deletedEvents.filter (matchesProfile g p) = []
    · rw [if_pos h]
      constructor
      · intro he
        exact absurd (congrArg Prod.snd he) (by simp)
      · rintro ⟨hne, _⟩
        exact absurd h hne
    · rw [if_neg h]
      rcases hp : profiles g p with _ | prof
      · simp only [hp]
        exact ⟨fun _ => ⟨h, trivial⟩, fun _ => trivial⟩
      · simp only [hp]
        constructor
        · intro he
          exact absurd (congrArg Prod.snd he) (by simp)
        · rintro ⟨_, hnone⟩
          cases hnone

/-- Concrete stores used to instantiate the C10 theorem. -/
def c10State : EngineState := ⟨[], [], []⟩

def c10Deleted : PendingEvent :=
  { id := .det "g" "p" 99000, slotKey := some (.det "g" "p" 99000),
    groupId := "g", profileKey := "p",
    scheduledPublishTime := some 1000, eventStartsAt := some 99000,
    manualOverrides := none, status := "deleted", eventId := none,
    missedAt := none, queuedAt := none, deletedAt := some 0 }

def c10StateD : EngineState := ⟨[], [c10Deleted], []⟩

/-- Witness for C10: with an empty deleted pool and no profile the call
returns `{ok:true, restoredCount:0}` unchanged; with one deleted entry and
no profile it returns the `Profile not found` error. -/
theorem restoreDeletedEvents_empty_pool_witness :
    restoreDeletedEvents 0 (fun _ _ => none) c10State "g" "p" = (c10State, .ok 0) ∧
    restoreDeletedEvents 0 (fun _ _ => none) c10StateD "g" "p" =
      (c10StateD, .err "Profile not found") := by
  constructor
  · exact (restoreDeletedEvents_empty_pool 0 (fun _ _ => none) c10State "g" "p").1 (by decide)
  · exact (restoreDeletedEvents_empty_pool 0 (fun _ _ => none) c10StateD "g" "p").2.mpr
      ⟨by decide, rfl⟩

/-- Claim C1 (amended): `handleMissedEvent(id, "postNow")` returns
`{ok:false, error}` exactly when the record's status is `queued`; for any
other status — including `published` — it resets the status to
`scheduled`, hands the record to the rate-limit queue
(`executeAutomatedPost`), and returns `{ok:true}` immediately without
reporting the publish outcome. -/
theorem handleMissedEvent_postNow_behavior (now : Int) (profiles : ProfilesMap)
    (st : EngineState) (id : PendingId) (e : PendingEvent)
    (hfind : st.pendingEvents.find? (fun x => decide (x.id = id)) = some e) :
    (e.status = "queued" →
      handleMissedEvent now profiles st id "postNow" =
        some (st, .err "Event is queued waiting for rate limits to clear. Please wait.", [])) ∧
    (e.status ≠ "queued" →
      handleMissedEvent now profiles st id "postNow" =
        some ({ st with pendingEvents :=
            replaceFirstById st.pendingEvents id { e with status := "scheduled" } },
          .ok, [.enqueuePost id])) := by
  unfold handleMissedEvent
  rw [hfind]
  constructor
  · intro h
    simp [h]
  · intro h
    simp [h]

/-- A concrete store holding one `published` record, for claim C1. -/
def c1Published : PendingEvent :=
  { id := .det "g" "p" 500000, slotKey := some (.det "g" "p" 500000),
    groupId := "g", profileKey := "p",
    scheduledPublishTime := some 400000, eventStartsAt := some 500000,
    manualOverrides := none, status := "published", eventId := some "ev1",
    missedAt := none, queuedAt := none, deletedAt := none }

def c1State : EngineState := ⟨[c1Published], [], []⟩

/-- Counterexample to C1 as stated: the claim demands that `postNow` on a
`published` record return `{ok:false, error}` without invoking the publish
worker; on this store the record has status `published`, yet the call
returns `{ok:true}` and emits an `enqueuePost` for the record. -/
theorem handleMissedEvent_postNow_cex :
    (c1State.pendingEvents.find?
        (fun x => decide (x.id = PendingId.det "g" "p" 500000))).map
      (fun e => e.status) = some "published" ∧
    (handleMissedEvent 0 (fun _ _ => none) c1State (.det "g" "p" 500000) "postNow").map
        (fun r => (r.2.1, r.2.2)) =
      some (HMResult.ok, [EngineEffect.enqueuePost (.det "g" "p" 500000)]) := by
  constructor <;> decide

/-- A concrete store holding one `queued` record, for the C1 witness. -/
def c1Queued : PendingEvent :=
  { id := .det "g" "p" 600000, slotKey := some (.det "g" "p" 600000),
    groupId := "g", profileKey := "p",
    scheduledPublishTime := some 500000, eventStartsAt := some 600000,
    manualOverrides := none, status := "queued", eventId := none,
    missedAt := none, queuedAt := some 1, deletedAt := none }

def c1StateQ : EngineState := ⟨[c1Queued], [], []⟩

def c1StateAfter : EngineState :=
  { c1State with pendingEvents := (replaceFirstById c1State.pendingEvents
      (.det "g" "p" 500000) { c1Published with status := "scheduled" }) }

/-- Witness for the amended C1: the queued record is refused, the
published record is re-queued with `{ok:true}`. -/
theorem handleMissedEvent_postNow_behavior_witness :
    handleMissedEvent 0 (fun _ _ => none) c1StateQ (.det "g" "p" 600000) "postNow" =
      some (c1StateQ, .err "Event is queued waiting for rate limits to clear. Please wait.", []) ∧
    handleMissedEvent 0 (fun _ _ => none) c1State (.det "g" "p" 500000) "postNow" =
      some (c1StateAfter, .ok, [.enqueuePost (.det "g" "p" 500000)]) := by
  constructor
  · exact (handleMissedEvent_postNow_behavior 0 (fun _ _ => none) c1StateQ
      (.det "g" "p" 600000) c1Queued (by decide)).1 rfl
  · have h := (handleMissedEvent_postNow_behavior 0 (fun _ _ => none) c1State
      (.det "g" "p" 500000) c1Published (by decide)).2 (by decide)
    exact h.trans (by decide)

theorem cappedPublish_le (eventStartMs rawPublish : Int) :
    cappedPublish eventStartMs rawPublish ≤ eventStartMs - MIN_BUFFER_MS := by
  unfold cappedPublish
  split_ifs <;> omega

theorem cappedPublish_keeps (eventStartMs rawPublish : Int)
    (h : rawPublish ≤ eventStartMs - MIN_BUFFER_MS) :
    cappedPublish eventStartMs rawPublish = rawPublish := by
  unfold cappedPublish
  split_ifs <;> omega

/-- Every record produced by the expansion loop (beyond the accumulator)
carries its slot's start, a publish time respecting the 30-minute cap and
strictly in the future, status `scheduled`, and a start strictly after the
`minEventStartMs` cut when one is given. -/
theorem calcPendingLoop_mem (now : Int) (g p : String) (profile : Profile)
    (a : Automation) (ps : ProfileState) (maxE : Nat) (minMs : Option Int) :
    ∀ (opts : List Int) (acc : List PendingEvent),
      ∀ e ∈ calcPendingLoop now g p profile a ps maxE minMs acc opts,
        e ∈ acc ∨
        ∃ s q, e.eventStartsAt = some s ∧ e.scheduledPublishTime = some q ∧
          q ≤ s - MIN_BUFFER_MS ∧ now < q ∧ e.status = "scheduled" ∧
          (∀ m, minMs = some m → m < s) := by
  intro opts
  induction opts with
  | nil =>
    intro acc e he
    exact Or.inl he
  | cons dOpt rest ih =>
    intro acc e he
    unfold calcPendingLoop at he
    by_cases h1 : acc.length ≥ maxE
    · rw [if_pos h1] at he
      exact Or.inl he
    · rw [if_neg h1] at he
      by_cases h2 : a.repeatMode = "count" ∧ ps.eventsCreated + acc.length + 1 > a.repeatCount
      · rw [if_pos h2] at he
        exact Or.inl he
      · rw [if_neg h2] at he
        rcases hmin : minMs with _ | m
        · subst hmin
          rw [if_neg (by simp)] at he
          by_cases h4 : cappedPublish dOpt (calcPublishForOption now profile a ps acc dOpt) ≤ now
          · rw [if_pos h4] at he
            exact ih acc e he
          · rw [if_neg h4] at he
            rcases ih _ e he with hin | hp
            · rcases List.mem_append.mp hin with hin2 | hin2
              · exact Or.inl hin2
              · rcases List.mem_singleton.mp hin2 with rfl
                exact Or.inr ⟨dOpt, _, rfl, rfl, cappedPublish_le _ _, by omega, rfl,
                  fun m hm => by cases hm⟩
            · exact Or.inr hp
        · subst hmin
          by_cases h3 : dOpt ≤ m
          · rw [if_pos (by simpa using h3)] at he
            exact ih acc e he
          · rw [if_neg (by simpa using h3)] at he
            by_cases h4 : cappedPublish dOpt (calcPublishForOption now profile a ps acc dOpt) ≤ now
            · rw [if_pos h4] at he
              exact ih acc e he
            · rw [if_neg h4] at he
              rcases ih _ e he with hin | hp
              · rcases List.mem_append.mp hin with hin2 | hin2
                · exact Or.inl hin2
                · rcases List.mem_singleton.mp hin2 with rfl
                  refine Or.inr ⟨dOpt, _, rfl, rfl, cappedPublish_le _ _, by omega, rfl, ?_⟩
                  intro m2 hm2
                  rw [Option.some_inj] at hm2
                  omega
              · exact Or.inr hp

/-- Claim C3 (amended): the publish-time calculation enforces
`publish ≤ start - 30 min` — a result exactly at `start - 30 min` is kept,
a later one is clamped down — and every record produced by slot expansion
satisfies the bound with a strictly-future publish time; but
`handleMissedEvent(id, "reschedule")` does not reapply the cap: in
non-before modes it always sets `scheduledPublishTime` to `now + 5 min`
(and flips the record to `scheduled`), which may exceed
`eventStartsAt - 30 min`. -/
theorem scheduledPublish_cap_amended :
    (∀ startMs profile q, calculatePublishTime startMs profile = some q →
      q ≤ startMs - MIN_BUFFER_MS) ∧
    (∀ startMs (profile : Profile) (a : Automation), profile.automation = some a →
      a.enabled = true → a.timingMode = "before" → MIN_BUFFER_MS ≤ beforeOffsetMs a →
      calculatePublishTime startMs (some profile) = some (startMs - beforeOffsetMs a)) ∧
    (∀ startMs (profile : Profile) (a : Automation), profile.automation = some a →
      a.enabled = true → a.timingMode = "before" → beforeOffsetMs a < MIN_BUFFER_MS →
      calculatePublishTime startMs (some profile) = some (startMs - MIN_BUFFER_MS)) ∧
    (∀ now g p profile ps maxE minMs opts,
      ∀ e ∈ calculatePendingEvents now g p profile ps maxE minMs opts,
        ∃ s q, e.eventStartsAt = some s ∧ e.scheduledPublishTime = some q ∧
          q ≤ s - MIN_BUFFER_MS ∧ now < q) ∧
    (∀ now (profiles : ProfilesMap) st id e (a : Automation),
      st.pendingEvents.find? (fun x => decide (x.id = id)) = some e →
      (profiles e.groupId e.profileKey).bind (fun pr => pr.automation) = some a →
      a.enabled = true → a.timingMode ≠ "before" →
      handleMissedEvent now profiles st id "reschedule" =
        some ({ st with pendingEvents := (replaceFirstById st.pendingEvents id
            { e with scheduledPublishTime := some (now + 5 * 60 * 1000),
                     status := "scheduled", missedAt := none }) },
          .ok, [.scheduleTimer id])) := by
  have hcap : ∀ startMs (profile : Profile) (a : Automation), profile.automation = some a →
      a.enabled = true → a.timingMode = "before" →
      calculatePublishTime startMs (some profile) =
        some (cappedPublish startMs (startMs - beforeOffsetMs a)) := by
    intro startMs profile a ha hen hmode
    unfold calculatePublishTime
    simp [Option.some_bind, ha, hen, hmode]
  refine ⟨?_, ?_, ?_, ?_, ?_⟩
  · intro startMs profile q h
    unfold calculatePublishTime at h
    rcases hb : profile.bind (fun pr => pr.automation) with _ | a
    · simp only [hb] at h
      cases h
    · simp only [hb] at h
      by_cases he : a.enabled = false
      · rw [if_pos he] at h
        cases h
      · rw [if_neg he] at h
        rw [Option.some_inj] at h
        subst h
        exact cappedPublish_le _ _
  · intro startMs profile a ha hen hmode hoff
    rw [hcap startMs profile a ha hen hmode, cappedPublish_keeps _ _ (by omega)]
  · intro startMs profile a ha hen hmode hoff
    rw [hcap startMs profile a ha hen hmode]
    unfold cappedPublish
    rw [if_pos (by omega)]
  · intro now g p profile ps maxE minMs opts e he
    rcases profile with _ | pr
    · cases he
    · rcases hpa : pr.automation with _ | a
      · unfold calculatePendingEvents at he
        simp only [hpa] at he
        cases he
      · unfold calculatePendingEvents at he
        simp only [hpa] at he
        split_ifs at he
        · cases he
        · cases he
        · cases he
        · rcases calcPendingLoop_mem now g p pr a ps maxE minMs opts [] e he with hin | hp
          · cases hin
          · rcases hp with ⟨s, q, h1, h2, h3, h4, _, _⟩
            exact ⟨s, q, h1, h2, h3, h4⟩
  · intro now profiles st id e a hfind hpa hen hmode
    unfold handleMissedEvent
    simp only [hfind, if_true]
    simp only [hpa]
    rw [if_neg hmode]
    simp [hen]

/-- A monthly-mode automation block and profile, for claim C3. -/
def c3Auto : Automation :=
  { enabled := true, timingMode := "monthly", daysOffset := 0, hoursOffset := 0,
    minutesOffset := 0, monthlyDay := 1, monthlyHour := 12, monthlyMinute := 0,
    repeatMode := "indefinite", repeatCount := 0 }

def c3Profile : Profile :=
  { name := some "T", description := none, duration := some 60, timezone := none,
    patterns := ["p1"], automation := some c3Auto }

def c3Profiles : ProfilesMap :=
  fun g2 p2 => if g2 = "g" ∧ p2 = "p" then some c3Profile else none

/-- A missed record whose event starts 10 minutes from `now = 0`. -/
def c3Missed : PendingEvent :=
  { id := .det "g" "p" 600000, slotKey := some (.det "g" "p" 600000),
    groupId := "g", profileKey := "p",
    scheduledPublishTime := some (-100), eventStartsAt := some 600000,
    manualOverrides := none, status := "missed", eventId := none,
    missedAt := some 0, queuedAt := none, deletedAt := none }

def c3State : EngineState := ⟨[c3Missed], [], []⟩

/-- Counterexample to C3 as stated: rescheduling the missed record (event
start at 600000 ms, `now = 0`, monthly mode) rewrites
`scheduledPublishTime` to `now + 5 min = 300000` and flips the record to
`scheduled`, yet `300000 > eventStartsAt - 30 min = -1200000`: a
`scheduled` record violating the claimed hard cap. -/
theorem reschedule_violates_cap_cex :
    (handleMissedEvent 0 c3Profiles c3State (.det "g" "p" 600000) "reschedule").map
        (fun r => r.1.pendingEvents.map
          (fun ev => (ev.status, ev.scheduledPublishTime, ev.eventStartsAt))) =
      some [("scheduled", some 300000, some 600000)] ∧
    ¬ (300000 : Int) ≤ 600000 - MIN_BUFFER_MS := by
  constructor
  · decide
  · decide

def c3AutoBefore30 : Automation :=
  { c3Auto with timingMode := "before", minutesOffset := 30 }

def c3AutoBefore29 : Automation :=
  { c3Auto with timingMode := "before", minutesOffset := 29 }

def c3ProfileBefore30 : Profile := { c3Profile with automation := some c3AutoBefore30 }

def c3ProfileBefore29 : Profile := { c3Profile with automation := some c3AutoBefore29 }

def c3Rescheduled : PendingEvent :=
  { c3Missed with scheduledPublishTime := some 300000, status := "scheduled", missedAt := none }

def c3StateAfter : EngineState :=
  { c3State with pendingEvents := (replaceFirstById c3State.pendingEvents
      (.det "g" "p" 600000) c3Rescheduled) }

/-- Witness for the amended C3: the cap theorem instantiated —
before-mode offset of exactly 30 minutes is kept, a 29-minute offset is
clamped, and a non-before reschedule sets `now + 5 min`. -/
theorem scheduledPublish_cap_amended_witness :
    (8200000 : Int) ≤ 10000000 - MIN_BUFFER_MS ∧
    calculatePublishTime 10000000 (some c3ProfileBefore30) = some (10000000 - 1800000) ∧
    calculatePublishTime 10000000 (some c3ProfileBefore29) = some (10000000 - MIN_BUFFER_MS) ∧
    handleMissedEvent 0 c3Profiles c3State (.det "g" "p" 600000) "reschedule" =
      some (c3StateAfter, .ok, [.scheduleTimer (.det "g" "p" 600000)]) := by
  refine ⟨?_, ?_, ?_, ?_⟩
  · exact scheduledPublish_cap_amended.1 10000000 (some c3ProfileBefore30) 8200000 (by decide)
  · have h := scheduledPublish_cap_amended.2.1 10000000 c3ProfileBefore30 c3AutoBefore30
      rfl rfl rfl (by decide)
    simpa using h
  · exact scheduledPublish_cap_amended.2.2.1 10000000 c3ProfileBefore29 c3AutoBefore29
      rfl rfl rfl (by decide)
  · have h := scheduledPublish_cap_amended.2.2.2.2 0 c3Profiles c3State
      (.det "g" "p" 600000) c3Missed c3Auto (by decide) (by decide) rfl (by decide)
    exact h.trans (by decide)

/-- A record restored past an anchor carries an event start strictly
after the anchor. -/
theorem restoreStep_start_gt_anchor (nowMs : Int) (profile : Profile) (g p : String)
    (a : Int) (modified published : List PendingId) (e e2 : PendingEvent)
    (h : restoreStep nowMs profile g p (some a) modified published e = some e2) :
    ∃ s, e2.eventStartsAt = some s ∧ a < s := by
  unfold restoreStep at h
  dsimp only at h
  by_cases h1 : (getPendingSlotKeys e).any (fun k => decide (k ∈ modified)) = true
  · rw [if_pos h1] at h
    cases h
  · rw [if_neg h1] at h
    by_cases h2 : (getPendingSlotKeys e).any (fun k => decide (k ∈ published)) = true
    · rw [if_pos h2] at h
      cases h
    · rw [if_neg h2] at h
      rcases hr : getRestoreStartMs e with _ | s
      · simp only [hr] at h
        cases h
      · simp only [hr] at h
        by_cases h3 : s ≤ nowMs
        · rw [if_pos h3] at h
          cases h
        · rw [if_neg h3] at h
          by_cases h4 : decide (s ≤ a) = true
          · rw [if_pos h4] at h
            cases h
          · rw [if_neg h4] at h
            have hsa : a < s := by
              simp at h4
              omega
            rcases hcp : calculatePublishTime s (some profile) with _ | q
            · simp only [hcp] at h
              cases h
            · simp only [hcp] at h
              by_cases h5 : q ≤ nowMs
              · rw [if_pos h5] at h
                cases h
              · rw [if_neg h5] at h
                by_cases h6 : (match e.manualOverrides with
                    | some o => o.title.isSome || o.eventStartsAt.isSome ||
                        o.durationMinutes.isSome || o.timezone.isSome
                    | none => false) = true ∧ e.eventStartsAt = some s
                · rw [if_pos h6] at h
                  rw [Option.some_inj] at h
                  subst h
                  refine ⟨s, ?_, hsa⟩
                  simp only [h6.2]
                · rw [if_neg h6] at h
                  rw [Option.some_inj] at h
                  subst h
                  exact ⟨s, rfl, hsa⟩

/-- Every record produced by the restore loop comes from a deleted entry
through `restoreStep`. -/
theorem restoreLoop_mem (nowMs : Int) (profile : Profile) (g p : String)
    (anchorMs : Option Int) (modified published : List PendingId) :
    ∀ (l : List PendingEvent) (e2 : PendingEvent),
      e2 ∈ (restoreLoop nowMs profile g p anchorMs modified published l).1 →
      ∃ e ∈ l, restoreStep nowMs profile g p anchorMs modified published e = some e2 := by
  intro l
  induction l with
  | nil =>
    intro e2 he
    cases he
  | cons e rest ih =>
    intro e2 he
    unfold restoreLoop at he
    rcases hs : restoreStep nowMs profile g p anchorMs modified published e with _ | r
    · simp only [hs] at he
      rcases ih e2 he with ⟨e0, he0, hstep⟩
      exact ⟨e0, List.mem_cons_of_mem _ he0, hstep⟩
    · simp only [hs] at he
      rcases List.mem_cons.mp he with rfl | he2
      · exact ⟨e, List.mem_cons_self e rest, hs⟩
      · rcases ih e2 he2 with ⟨e0, he0, hstep⟩
        exact ⟨e0, List.mem_cons_of_mem _ he0, hstep⟩

/-- Claim C2 (amended): slot expansion with an anchor cut materializes
only records whose `eventStartsAt` lies strictly after the cut, and
`restoreDeletedEvents` under an existing anchor only adds records strictly
after the anchor; but the anchor invariant is not universal: a successful
publish with no prior anchor seeds `activationStartsAt` to exactly the
published record's `eventStartsAt` (equality, not strict), and
`updatePendingEventOverrides` applies an overridden `eventStartsAt`
without any anchor check, so an override can leave a pending record at or
before the anchor. -/
theorem pending_after_anchor_amended :
    (∀ now g p profile ps maxE a opts,
      ∀ e ∈ calculatePendingEvents now g p profile ps maxE (some a) opts,
        ∃ s, e.eventStartsAt = some s ∧ a < s) ∧
    (∀ nowMs (profiles : ProfilesMap) (st : EngineState) (g p : String) (a : Int),
      (lookupProfileState st.automationProfiles (getProfileStateKey g p)).bind
          (fun ps => ps.activationStartsAt) = some a →
      ∀ e ∈ (restoreDeletedEvents nowMs profiles st g p).1.pendingEvents,
        e ∈ st.pendingEvents ∨ ∃ s, e.eventStartsAt = some s ∧ a < s) ∧
    (∀ now rid (e : PendingEvent) (ps : ProfileState) (t : Int),
      ps.activationStartsAt = none → e.eventStartsAt = some t →
      (applyPublishSuccess now rid e ps).2.activationStartsAt = some t ∧
      (applyPublishSuccess now rid e ps).1.eventStartsAt = some t ∧
      (applyPublishSuccess now rid e ps).1.status = "published") := by
  refine ⟨?_, ?_, ?_⟩
  · intro now g p profile ps maxE a opts e he
    rcases profile with _ | pr
    · cases he
    · rcases hpa : pr.automation with _ | au
      · unfold calculatePendingEvents at he
        simp only [hpa] at he
        cases he
      · unfold calculatePendingEvents at he
        simp only [hpa] at he
        split_ifs at he
        · cases he
        · cases he
        · cases he
        · rcases calcPendingLoop_mem now g p pr au ps maxE (some a) opts [] e he with hin | hp
          · cases hin
          · rcases hp with ⟨s, q, h1, _, _, _, _, hmin⟩
            exact ⟨s, h1, hmin a rfl⟩
  · intro nowMs profiles st g p a hanchor e he
    rcases hl : lookupProfileState st.automationProfiles (getProfileStateKey g p) with _ | ps
    · rw [hl] at hanchor
      cases hanchor
    · rw [hl] at hanchor
      simp only [Option.some_bind] at hanchor
      unfold restoreDeletedEvents at he
      by_cases hd : st.deletedEvents.filter (matchesProfile g p) = []
      · rw [if_pos hd] at he
        exact Or.inl he
      · rw [if_neg hd] at he
        rcases hp : profiles g p with _ | profile
        · simp only [hp] at he
          exact Or.inl he
        · simp only [hp] at he
          simp only [getOrCreateProfileState, hl, getActivationStartMs, parseEventStartMs,
            hanchor] at he
          rcases List.mem_append.mp he with hin | hin
          · exact Or.inl hin
          · rcases restoreLoop_mem nowMs profile g p (some a) _ _ _ e hin with ⟨e0, _, hstep⟩
            exact Or.inr (restoreStep_start_gt_anchor nowMs profile g p a _ _ e0 e hstep)
  · intro now rid e ps t hnone hstart
    unfold applyPublishSuccess
    simp only [getActivationStartMs, parseEventStartMs, hnone, hstart]
    exact ⟨trivial, trivial, trivial⟩

/-- Fixtures for claim C2: a before-mode profile with zero offset, a
pending record after the anchor 5000, and an override moving its start to
3000 (before the anchor). -/
def c2AutoBefore : Automation :=
  { enabled := true, timingMode := "before", daysOffset := 0, hoursOffset := 0,
    minutesOffset := 0, monthlyDay := 1, monthlyHour := 12, monthlyMinute := 0,
    repeatMode := "indefinite", repeatCount := 0 }

def c2Profile : Profile :=
  { name := some "T", description := none, duration := some 60, timezone := none,
    patterns := ["p1"], automation := some c2AutoBefore }

def c2Profiles : ProfilesMap :=
  fun g2 p2 => if g2 = "g" ∧ p2 = "p" then some c2Profile else none

def c2Rec : PendingEvent :=
  { id := .det "g" "p" 10000, slotKey := some (.det "g" "p" 10000),
    groupId := "g", profileKey := "p",
    scheduledPublishTime := some 10000, eventStartsAt := some 10000,
    manualOverrides := none, status := "scheduled", eventId := none,
    missedAt := none, queuedAt := none, deletedAt := none }

def c2State : EngineState := ⟨[c2Rec], [], [("g::p", ⟨0, some 5000, none, none⟩)]⟩

def c2Ovr : Overrides :=
  { title := none, eventStartsAt := some 3000, durationMinutes := none, timezone := none }

/-- Counterexample to C2 as stated: the override operation checks no
anchor.  The anchor is 5000 and the only pending record starts at 10000
(the claimed invariant holds); after `updatePendingEventOverrides` moves
the start to 3000 the store holds a `scheduled` record with
`eventStartsAt = 3000 ≤ 5000 = activationStartsAt`. -/
theorem override_below_anchor_cex :
    (lookupProfileState c2State.automationProfiles (getProfileStateKey "g" "p")).bind
      (fun ps => ps.activationStartsAt) = some 5000 ∧
    c2State.pendingEvents.map (fun ev => ev.eventStartsAt) = [some 10000] ∧
    (5000 : Int) < 10000 ∧
    (updatePendingEventOverrides 0 c2Profiles c2State (.det "g" "p" 10000) (some c2Ovr)).map
      (fun r => (r.1.pendingEvents.map (fun ev => (ev.eventStartsAt, ev.status)),
        r.1.automationProfiles)) =
      some ([(some 3000, "scheduled")], c2State.automationProfiles) ∧
    (3000 : Int) ≤ 5000 := by
  exact ⟨by decide, by decide, by decide, by decide, by decide⟩

/-- Fixtures for the C2 witness: a deleted entry starting at 9990000 for
a profile anchored at 5000, and a fresh record for the publish-seeding
conjunct. -/
def c2Deleted : PendingEvent :=
  { id := .det "g" "p" 9990000, slotKey := some (.det "g" "p" 9990000),
    groupId := "g", profileKey := "p",
    scheduledPublishTime := some 1000, eventStartsAt := some 9990000,
    manualOverrides := none, status := "deleted", eventId := none,
    missedAt := none, queuedAt := none, deletedAt := some 0 }

def c2StateR : EngineState := ⟨[], [c2Deleted], [("g::p", ⟨0, some 5000, none, none⟩)]⟩

def c2Restored : PendingEvent :=
  { id := .det "g" "p" 9990000, slotKey := some (.det "g" "p" 9990000),
    groupId := "g", profileKey := "p",
    scheduledPublishTime := some 8190000, eventStartsAt := some 9990000,
    manualOverrides := none, status := "scheduled", eventId := none,
    missedAt := none, queuedAt := none, deletedAt := none }

def c2Pub : PendingEvent :=
  { id := .det "g" "p" 7777, slotKey := some (.det "g" "p" 7777),
    groupId := "g", profileKey := "p",
    scheduledPublishTime := some 7000, eventStartsAt := some 7777,
    manualOverrides := none, status := "scheduled", eventId := none,
    missedAt := none, queuedAt := none, deletedAt := none }

/-- Witness for the amended C2: expansion past the cut 5000 yields a
start strictly beyond it; the record restored past the anchor 5000 starts
strictly after it; a publish with no prior anchor seeds the anchor to the
record's own start. -/
theorem pending_after_anchor_amended_witness :
    (∃ s, (mkPendingEvent "g" "p" 8200000 10000000).eventStartsAt = some s ∧ 5000 < s) ∧
    (c2Restored ∈ c2StateR.pendingEvents ∨
      ∃ s, c2Restored.eventStartsAt = some s ∧ 5000 < s) ∧
    ((applyPublishSuccess 0 (some "ev") c2Pub ⟨0, none, none, none⟩).2.activationStartsAt =
        some 7777 ∧
      (applyPublishSuccess 0 (some "ev") c2Pub ⟨0, none, none, none⟩).1.eventStartsAt =
        some 7777 ∧
      (applyPublishSuccess 0 (some "ev") c2Pub ⟨0, none, none, none⟩).1.status =
        "published") := by
  refine ⟨?_, ?_, ?_⟩
  · exact pending_after_anchor_amended.1 0 "g" "p" (some c2Profile) ⟨0, none, none, none⟩
      10 5000 [4000, 10000000] (mkPendingEvent "g" "p" 8200000 10000000) (by decide)
  · exact pending_after_anchor_amended.2.1 0 c2Profiles c2StateR "g" "p" 5000 (by decide)
      c2Restored (by decide)
  · exact pending_after_anchor_amended.2.2 0 (some "ev") c2Pub ⟨0, none, none, none⟩ 7777
      rfl rfl

theorem splitOnChar_ne_nil (c : Char) (l : List Char) : splitOnChar c l ≠ [] := by
  cases l with
  | nil => simp [splitOnChar]
  | cons x xs =>
    unfold splitOnChar
    by_cases h : x = c
    · simp [h]
    · rw [if_neg h]
      rcases splitOnChar c xs with _ | ⟨h1, t1⟩ <;> simp

theorem splitOnChar_no_sep (c : Char) (l : List Char) (h : c ∉ l) :
    splitOnChar c l = [l] := by
  induction l with
  | nil => rfl
  | cons x xs ih =>
    have hx : x ≠ c := fun he => h (he ▸ List.mem_cons_self x xs)
    have hxs : c ∉ xs := fun he => h (List.mem_cons_of_mem _ he)
    unfold splitOnChar
    rw [if_neg hx, ih hxs]

theorem splitOnChar_length (c : Char) (l : List Char) :
    (splitOnChar c l).length = l.count c + 1 := by
  induction l with
  | nil => rfl
  | cons x xs ih =>
    unfold splitOnChar
    by_cases h : x = c
    · subst h
      rw [if_pos rfl]
      simp [List.count_cons, ih]
    · rw [if_neg h]
      rcases hs : splitOnChar c xs with _ | ⟨h1, t1⟩
      · exact absurd hs (splitOnChar_ne_nil c xs)
      · rw [hs] at ih
        simp only [List.length_cons] at ih ⊢
        rw [List.count_cons]
        simp [h, ih]

theorem splitOnChar_getLastD (a t : List Char) (ht : '_' ∉ t) :
    (splitOnChar '_' (a ++ '_' :: t)).getLastD [] = t := by
  induction a with
  | nil =>
    simp only [List.nil_append]
    unfold splitOnChar
    rw [if_pos rfl, splitOnChar_no_sep '_' t ht]
    rfl
  | cons x a2 ih =>
    have hlen : (splitOnChar '_' (a2 ++ '_' :: t)).length ≥ 2 := by
      rw [splitOnChar_length]
      have : ('_' :: t).count '_' ≥ 1 := by
        simp [List.count_cons]
      have hc : (a2 ++ '_' :: t).count '_' ≥ 1 := by
        rw [List.count_append]
        omega
      omega
    simp only [List.cons_append]
    unfold splitOnChar
    by_cases h : x = '_'
    · rw [if_pos h]
      rw [List.getLastD_cons]
      rcases hs : splitOnChar '_' (a2 ++ '_' :: t) with _ | ⟨h1, t1⟩
      · exact absurd hs (splitOnChar_ne_nil _ _)
      · rw [hs] at ih
        rw [List.getLastD_cons] at ih ⊢
        rcases t1 with _ | ⟨h2, t2⟩
        · rw [hs] at hlen
          simp at hlen
        · exact ih
    · rw [if_neg h]
      rcases hs : splitOnChar '_' (a2 ++ '_' :: t) with _ | ⟨h1, t1⟩
      · exact absurd hs (splitOnChar_ne_nil _ _)
      · rw [hs] at ih hlen
        rcases t1 with _ | ⟨h2, t2⟩
        · simp at hlen
        · rw [List.getLastD_cons] at ih ⊢
          rw [List.getLastD_cons] at ih ⊢
          exact ih

theorem parseUnsignedDec_digits (r : List Char) (hne : r ≠ [])
    (hd : r.all Char.isDigit = true) :
    parseUnsignedDec r = some ((digitsVal r : ℚ)) := by
  have hdot : '.' ∉ r := by
    intro hm
    have hx := List.all_eq_true.mp hd _ hm
    exact absurd hx (by decide)
  unfold parseUnsignedDec
  rw [splitOnChar_no_sep '.' r hdot]
  show (if r ≠ [] ∧ r.all Char.isDigit = true then some ((digitsVal r : ℚ)) else none) =
    some ((digitsVal r : ℚ))
  rw [if_pos ⟨hne, hd⟩]

theorem jsNumFinite_plus (r : List Char) :
    jsNumFinite ('+' :: r) = parseUnsignedDec r := rfl

theorem jsNumFinite_minus (r : List Char) :
    jsNumFinite ('-' :: r) = (parseUnsignedDec r).map (fun q => -q) := rfl

theorem jsNumFinite_unsigned (c0 : Char) (r : List Char) (h1 : c0 ≠ '+') (h2 : c0 ≠ '-') :
    jsNumFinite (c0 :: r) = parseUnsignedDec (c0 :: r) := by
  unfold jsNumFinite
  rw [if_neg (by simp)]
  split
  · rename_i heq
    injection heq with hc _
    exact absurd hc h1
  · rename_i heq
    injection heq with hc _
    exact absurd hc h2
  · rfl

theorem signedIntTokenVal_unsigned (c0 : Char) (r : List Char) (h1 : c0 ≠ '+')
    (h2 : c0 ≠ '-') :
    signedIntTokenVal (c0 :: r) =
      (if (c0 :: r) ≠ [] ∧ (c0 :: r).all Char.isDigit then
        some ((digitsVal (c0 :: r) : Int)) else none) := by
  unfold signedIntTokenVal
  split
  · rename_i heq
    injection heq with hc _
    exact absurd hc h1
  · rename_i heq
    injection heq with hc _
    exact absurd hc h2
  · rfl

theorem signedInt_jsNumFinite (t : List Char) (v : Int)
    (h : signedIntTokenVal t = some v) :
    jsNumFinite t = some ((v : ℚ)) := by
  rcases t with _ | ⟨c0, r⟩
  · rw [show signedIntTokenVal [] = none from rfl] at h
    cases h
  · by_cases hp : c0 = '+'
    · subst hp
      rw [show signedIntTokenVal ('+' :: r) =
        (if r ≠ [] ∧ r.all Char.isDigit then some ((digitsVal r : Int)) else none)
        from rfl] at h
      split_ifs at h with hc
      rw [Option.some_inj] at h
      subst h
      rw [jsNumFinite_plus, parseUnsignedDec_digits r hc.1 hc.2]
      norm_cast
    · by_cases hm : c0 = '-'
      · subst hm
        rw [show signedIntTokenVal ('-' :: r) =
          (if r ≠ [] ∧ r.all Char.isDigit then some (-(digitsVal r : Int)) else none)
          from rfl] at h
        split_ifs at h with hc
        rw [Option.some_inj] at h
        subst h
        rw [jsNumFinite_minus, parseUnsignedDec_digits r hc.1 hc.2]
        simp
      · rw [signedIntTokenVal_unsigned c0 r hp hm] at h
        split_ifs at h with hc
        rw [Option.some_inj] at h
        subst h
        rw [jsNumFinite_unsigned c0 r hp hm,
          parseUnsignedDec_digits _ hc.1 hc.2]
        norm_cast

/-- Claim C9 (amended): the engine extracts the start value solely by
splitting off the text after the final underscore, but the final token is
accepted whenever JavaScript `Number` evaluates it to a finite value, not
only when it is a signed decimal integer: the extraction equals
`Number(finalToken)` (so every signed-integer token yields its integer
value, while tokens such as the empty token, which `Number` maps to 0, or
fractional tokens also yield values). -/
theorem parsePendingEventIdStartMs_amended (a t : List Char) (ht : '_' ∉ t) :
    parsePendingEventIdStartMs (String.mk (a ++ '_' :: t)) = jsNumFinite t ∧
    (∀ v : Int, signedIntTokenVal t = some v → jsNumFinite t = some ((v : ℚ))) := by
  constructor
  · show parseIdStartMsList (a ++ '_' :: t) = jsNumFinite t
    unfold parseIdStartMsList
    rw [if_neg (by simp), splitOnChar_getLastD a t ht]
  · intro v hv
    exact signedInt_jsNumFinite t v hv

/-- Counterexample to C9 as stated: the id `pending_g_p_` has the empty
string as its final token — not parseable as a signed integer, so the
claim demands `null` — yet `Number("") = 0` is finite and the extraction
returns 0. -/
theorem parse_empty_token_cex :
    parsePendingEventIdStartMs "pending_g_p_" = some 0 ∧
    signedIntTokenVal [] = none := by
  constructor
  · decide
  · decide

/-- Witness for the amended C9: splitting `pending_g_p_12` at its final
underscore yields the token `12`, whose `Number` value is the integer
12. -/
theorem parsePendingEventIdStartMs_amended_witness :
    parsePendingEventIdStartMs (String.mk ("pending_g_p".toList ++ '_' :: "12".toList)) =
      jsNumFinite "12".toList ∧
    jsNumFinite "12".toList = some ((12 : Int) : ℚ) := by
  constructor
  · exact (parsePendingEventIdStartMs_amended "pending_g_p".toList "12".toList (by decide)).1
  · exact (parsePendingEventIdStartMs_amended "pending_g_p".toList "12".toList (by decide)).2
      12 (by decide)

/-- Fixtures for claim C4: monthly automation on day 31 at 19:30, an
event starting 2026-03-15T18:00. -/
def c4Auto : Automation :=
  { enabled := true, timingMode := "monthly", daysOffset := 0, hoursOffset := 0,
    minutesOffset := 0, monthlyDay := 31, monthlyHour := 19, monthlyMinute := 30,
    repeatMode := "indefinite", repeatCount := 0 }

def c4Profile : Profile :=
  { name := some "T", description := none, duration := some 60, timezone := none,
    patterns := ["p1"], automation := some c4Auto }

def c4Start : JsDate := ⟨2026, 2, 15, 18, 0, 0⟩

/-- Claim C4 is the intended behaviour, but the code slips on it: for the
March 15 event with `monthlyDay = 31`, the first computed instant
(March 31, after the clamp `min(31, 31)`) is not strictly before the
event start, so the claim requires stepping one calendar month earlier
with the clamp reapplied — February 28 (`monthlyPublishDateSpec`).  The
code instead calls `setMonth`, which rolls February 31 over to March 3,
and then recomputes "the previous month's last day" from the rolled date
— i.e. March's, contradicting its own comment — so `setDate(min(31, 31))`
lands back on March 31: the "publish" instant is after the event start
and the 30-minute cap then forces `start - 30 min`. -/
theorem monthly_rollover_bug :
    monthlyPublishDate c4Start c4Auto = ⟨2026, 2, 31, 19, 30, 0⟩ ∧
    monthlyPublishDateSpec c4Start c4Auto = ⟨2026, 1, 28, 19, 30, 0⟩ ∧
    monthlyPublishDate c4Start c4Auto ≠ monthlyPublishDateSpec c4Start c4Auto ∧
    toMs c4Start ≤ toMs (monthlyPublishDate c4Start c4Auto) ∧
    calculatePublishTime (toMs c4Start) (some c4Profile) =
      some (toMs c4Start - MIN_BUFFER_MS) := by
  refine ⟨by decide, by decide, by decide, by decide, by decide⟩

theorem update_eventId_self (e : PendingEvent) (x : Option String) (h : e.eventId = x) :
    ({ e with eventId := x } : PendingEvent) = e := by
  subst h
  rfl

/-- `reconcileStep` only ever rewrites the `eventId` field. -/
theorem reconcileStep_fields (P : ProfilesMap) (S : List PendingEvent) (ids : List String)
    (up : List RemoteEvent) (g : String) (e e2 : PendingEvent) (b : Bool)
    (h : reconcileStep P S ids up g e = some (e2, b)) :
    e2.id = e.id ∧ e2.groupId = e.groupId ∧ e2.profileKey = e.profileKey ∧
    e2.status = e.status ∧ e2.manualOverrides = e.manualOverrides ∧
    e2.eventStartsAt = e.eventStartsAt := by
  unfold reconcileStep at h
  by_cases h1 : e.groupId ≠ g ∨ e.status ≠ "published"
  · rw [if_pos h1] at h
    simp only [Option.some_inj, Prod.mk.injEq] at h
    obtain ⟨rfl, rfl⟩ := h
    exact ⟨rfl, rfl, rfl, rfl, rfl, rfl⟩
  · rw [if_neg h1] at h
    rcases hid : e.eventId with _ | eid
    · simp only [hid] at h
      rcases hst : e.eventStartsAt with _ | s
      · simp only [hst] at h
        simp only [Option.some_inj, Prod.mk.injEq] at h
        obtain ⟨rfl, rfl⟩ := h
        exact ⟨rfl, rfl, rfl, rfl, rfl, hst⟩
      · simp only [hst] at h
        rcases hc : candidatesFor up s with _ | ⟨c, tail⟩
        · simp only [hc] at h
          cases h
        · rcases tail with _ | ⟨c2, tail2⟩
          · simp only [hc] at h
            simp only [Option.some_inj, Prod.mk.injEq] at h
            obtain ⟨rfl, rfl⟩ := h
            exact ⟨rfl, rfl, rfl, rfl, rfl, rfl⟩
          · simp only [hc] at h
            rcases ht : resolveEventTitle P S e.id with _ | tt
            · simp only [ht] at h
              cases h
            · simp only [ht] at h
              rcases hm : (c :: c2 :: tail2).filter
                  (fun cc => decide (cc.title = some tt)) with _ | ⟨m, mt⟩
              · simp only [hm] at h
                cases h
              · rcases mt with _ | ⟨m2, mt2⟩
                · simp only [hm] at h
                  simp only [Option.some_inj, Prod.mk.injEq] at h
                  obtain ⟨rfl, rfl⟩ := h
                  exact ⟨rfl, rfl, rfl, rfl, rfl, rfl⟩
                · simp only [hm] at h
                  cases h
    · simp only [hid] at h
      split_ifs at h
      simp only [Option.some_inj, Prod.mk.injEq] at h
      obtain ⟨rfl, rfl⟩ := h
      exact ⟨rfl, rfl, rfl, rfl, rfl, rfl⟩

theorem reconcileGo_eq_filterMap (P : ProfilesMap) (S : List PendingEvent)
    (ids : List String) (up : List RemoteEvent) (g : String) :
    ∀ l, (reconcileGo P S ids up g l).1 =
      l.filterMap (fun e => (reconcileStep P S ids up g e).map Prod.fst) := by
  intro l
  induction l with
  | nil => rfl
  | cons e rest ih =>
    unfold reconcileGo
    rcases hs : reconcileStep P S ids up g e with _ | ⟨e2, b⟩
    · simp only [hs, List.filterMap_cons, Option.map_none]
      exact ih
    · simp only [hs, List.filterMap_cons, Option.map_some]
      rw [ih]
      rfl

theorem reconcileGo_ids_sublist (P : ProfilesMap) (S : List PendingEvent)
    (ids : List String) (up : List RemoteEvent) (g : String) :
    ∀ l, ((reconcileGo P S ids up g l).1.map (fun e => e.id)).Sublist
      (l.map (fun e => e.id)) := by
  intro l
  induction l with
  | nil => simp [reconcileGo]
  | cons e rest ih =>
    unfold reconcileGo
    rcases hs : reconcileStep P S ids up g e with _ | ⟨e2, b⟩
    · simp only [hs, List.map_cons]
      exact ih.cons e.id
    · simp only [hs, List.map_cons]
      rw [(reconcileStep_fields P S ids up g e e2 b hs).1]
      exact ih.cons₂ e.id

theorem find_self_of_nodup (l : List PendingEvent)
    (hnd : (l.map (fun e => e.id)).Nodup) (e : PendingEvent) (he : e ∈ l) :
    l.find? (fun x => decide (x.id = e.id)) = some e := by
  induction l with
  | nil => cases he
  | cons h2 rest ih =>
    simp only [List.map_cons, List.nodup_cons] at hnd
    rcases List.mem_cons.mp he with rfl | he2
    · rw [List.find?_cons_of_pos _ (by simp)]
    · have hne : ¬(h2.id = e.id) := by
        intro heq
        exact hnd.1 (heq ▸ List.mem_map_of_mem (fun x => x.id) he2)
      rw [List.find?_cons_of_neg _ (by simp [hne])]
      exact ih hnd.2 he2

theorem resolveEventTitle_of_find (P : ProfilesMap) (l : List PendingEvent)
    (i : PendingId) (e : PendingEvent)
    (h : l.find? (fun x => decide (x.id = i)) = some e) :
    resolveEventTitle P l i = titleFromEvent P e := by
  unfold resolveEventTitle
  rw [h]

theorem titleFromEvent_congr (P : ProfilesMap) (e e2 : PendingEvent)
    (h1 : e2.groupId = e.groupId) (h2 : e2.profileKey = e.profileKey)
    (h3 : e2.manualOverrides = e.manualOverrides) :
    titleFromEvent P e2 = titleFromEvent P e := by
  unfold titleFromEvent
  rw [h1, h2, h3]

theorem mem_reconcileEventIds (up : List RemoteEvent) (c : RemoteEvent) (i : String)
    (hc : c ∈ up) (hi : c.id = some i) : i ∈ reconcileEventIds up :=
  List.mem_filterMap.mpr ⟨c, hc, hi⟩

theorem candidatesFor_subset (up : List RemoteEvent) (s : Int) (c : RemoteEvent)
    (h : c ∈ candidatesFor up s) : c ∈ up :=
  (List.mem_filter.mp h).1

theorem update_two_self (e : PendingEvent) (x : Option String) (st : Option Int)
    (hx : e.eventId = x) (hst : e.eventStartsAt = st) :
    ({ e with eventId := x, eventStartsAt := st } : PendingEvent) = e := by
  subst hx
  subst hst
  rfl

/-- A record kept by one pass of the reconcile filter is kept unchanged —
and pays no `updated` increment — by a second pass over any store in which
it is found under its id. -/
theorem reconcileStep_stable (P : ProfilesMap) (S S2 : List PendingEvent)
    (up : List RemoteEvent) (g : String) (e e2 : PendingEvent) (b : Bool)
    (h : reconcileStep P S (reconcileEventIds up) up g e = some (e2, b))
    (hS : S.find? (fun x => decide (x.id = e.id)) = some e)
    (hS2 : S2.find? (fun x => decide (x.id = e2.id)) = some e2) :
    reconcileStep P S2 (reconcileEventIds up) up g e2 = some (e2, false) := by
  obtain ⟨hid, hgrp, hpk, hstat, hov, hsa⟩ :=
    reconcileStep_fields P S (reconcileEventIds up) up g e e2 b h
  unfold reconcileStep at h ⊢
  by_cases h1 : e.groupId ≠ g ∨ e.status ≠ "published"
  · rw [if_pos h1] at h
    simp only [Option.some_inj, Prod.mk.injEq] at h
    obtain ⟨rfl, rfl⟩ := h
    rw [if_pos h1]
  · rw [if_neg h1] at h
    have h1b : ¬(e2.groupId ≠ g ∨ e2.status ≠ "published") := by
      rw [hgrp, hstat]
      exact h1
    rw [if_neg h1b]
    rcases hid0 : e.eventId with _ | eid
    · simp only [hid0] at h
      rcases hst : e.eventStartsAt with _ | s
      · simp only [hst] at h
        simp only [Option.some_inj, Prod.mk.injEq] at h
        obtain ⟨rfl, rfl⟩ := h
        simp only [hid0, hst]
      · simp only [hst] at h
        have hsa2 : e2.eventStartsAt = some s := by rw [hsa, hst]
        rcases hc : candidatesFor up s with _ | ⟨c, tail⟩
        · simp only [hc] at h
          cases h
        · rcases tail with _ | ⟨c2, tail2⟩
          · simp only [hc] at h
            simp only [Option.some_inj, Prod.mk.injEq] at h
            rcases hcid : c.id with _ | i
            · have he2e : e2 = e := by
                rw [← h.1, hcid]
                exact update_two_self e none (some s) hid0 hst
              subst he2e
              simp only [hid0, hst, hc]
              rw [hcid, update_two_self e2 none (some s) hid0 hst]
              rfl
            · have heid : e2.eventId = some i := by rw [← h.1]; simp [hcid]
              simp only [heid]
              have hmem : i ∈ reconcileEventIds up :=
                mem_reconcileEventIds up c i
                  (candidatesFor_subset up s c (by rw [hc]; exact List.mem_singleton_self c))
                  hcid
              rw [if_pos hmem]
          · simp only [hc] at h
            rcases ht : resolveEventTitle P S e.id with _ | tt
            · simp only [ht] at h
              cases h
            · simp only [ht] at h
              rcases hm : (c :: c2 :: tail2).filter
                  (fun cc => decide (cc.title = some tt)) with _ | ⟨m, mt⟩
              · simp only [hm] at h
                cases h
              · rcases mt with _ | ⟨m2, mt2⟩
                · simp only [hm] at h
                  simp only [Option.some_inj, Prod.mk.injEq] at h
                  rcases hmid : m.id with _ | i
                  · have he2e : e2 = e := by
                      rw [← h.1, hmid]
                      exact update_two_self e none (some s) hid0 hst
                    subst he2e
                    have ht2 : resolveEventTitle P S2 e2.id = some tt := by
                      rw [resolveEventTitle_of_find P S2 e2.id e2 hS2,
                        ← resolveEventTitle_of_find P S e2.id e2 hS, ht]
                    simp only [hid0, hst, hc, ht2, hm]
                    rw [hmid, update_two_self e2 none (some s) hid0 hst]
                    rfl
                  · have heid : e2.eventId = some i := by rw [← h.1]; simp [hmid]
                    simp only [heid]
                    have hmmem : m ∈ candidatesFor up s := by
                      rw [hc]
                      exact List.mem_of_mem_filter (hm ▸ List.mem_singleton_self m)
                    have hmem : i ∈ reconcileEventIds up :=
                      mem_reconcileEventIds up m i (candidatesFor_subset up s m hmmem) hmid
                    rw [if_pos hmem]
                · simp only [hm] at h
                  cases h
    · simp only [hid0] at h
      split_ifs at h with hin
      simp only [Option.some_inj, Prod.mk.injEq] at h
      obtain ⟨rfl, rfl⟩ := h
      simp only [hid0]
      rw [if_pos hin]

theorem reconcileGo_self (P : ProfilesMap) (S2 : List PendingEvent) (ids : List String)
    (up : List RemoteEvent) (g : String) :
    ∀ l, (∀ x ∈ l, reconcileStep P S2 ids up g x = some (x, false)) →
      reconcileGo P S2 ids up g l = (l, 0, 0) := by
  intro l
  induction l with
  | nil => intro _; rfl
  | cons e rest ih =>
    intro hall
    unfold reconcileGo
    rw [ih (fun x hx => hall x (List.mem_cons_of_mem _ hx)),
      hall e (List.mem_cons_self e rest)]
    rfl

/-- Claim C8: reconciling twice against the same remote list is the same
as reconciling once — the second call removes no record, assigns no new
`eventId`, and returns the same store with zero `removed` / `updated`
counters (stores with duplicate record ids are outside the reachable
domain, by the load-time dedup). -/
theorem reconcilePublishedEvents_idempotent (P : ProfilesMap)
    (pending : List PendingEvent) (g : String) (up : List RemoteEvent)
    (hg : g ≠ "") (hnd : (pending.map (fun e => e.id)).Nodup) :
    reconcilePublishedEvents P ((reconcilePublishedEvents P pending g up).1) g up =
      ((reconcilePublishedEvents P pending g up).1, .ok 0 0) := by
  have hS1 : (reconcilePublishedEvents P pending g up).1 =
      (reconcileGo P pending (reconcileEventIds up) up g pending).1 := by
    unfold reconcilePublishedEvents
    rw [if_neg hg]
  have hnd1 : ((reconcilePublishedEvents P pending g up).1.map (fun e => e.id)).Nodup := by
    rw [hS1]
    exact (reconcileGo_ids_sublist P pending (reconcileEventIds up) up g pending).nodup hnd
  have hall : ∀ x ∈ (reconcilePublishedEvents P pending g up).1,
      reconcileStep P ((reconcilePublishedEvents P pending g up).1)
        (reconcileEventIds up) up g x = some (x, false) := by
    intro x hx
    have hx2 : x ∈ pending.filterMap
        (fun e => (reconcileStep P pending (reconcileEventIds up) up g e).map Prod.fst) := by
      rw [← reconcileGo_eq_filterMap, ← hS1]
      exact hx
    rcases List.mem_filterMap.mp hx2 with ⟨e, he, hfe⟩
    rcases Option.map_eq_some'.mp hfe with ⟨pr, hpr, hfst⟩
    rcases pr with ⟨e2, b⟩
    have hx3 : e2 = x := hfst
    subst hx3
    have hfields := reconcileStep_fields P pending (reconcileEventIds up) up g e e2 b hpr
    have hS : pending.find? (fun y => decide (y.id = e.id)) = some e :=
      find_self_of_nodup pending hnd e he
    have hS2 : (reconcilePublishedEvents P pending g up).1.find?
        (fun y => decide (y.id = e2.id)) = some e2 :=
      find_self_of_nodup _ hnd1 e2 hx
    exact reconcileStep_stable P pending _ up g e e2 b hpr hS hS2
  have hmain : ∀ l : List PendingEvent,
      (∀ x ∈ l, reconcileStep P l (reconcileEventIds up) up g x = some (x, false)) →
      reconcilePublishedEvents P l g up = (l, .ok 0 0) := by
    intro l hl
    unfold reconcilePublishedEvents
    rw [if_neg hg, reconcileGo_self P l (reconcileEventIds up) up g l hl]
  exact hmain ((reconcilePublishedEvents P pending g up).1) hall

/-- Fixtures for the C8 witness: a published record without an id that
matches the remote event by start, and a published record whose id is
unknown remotely (dropped on the first pass). -/
def c8Pub : PendingEvent :=
  { id := .det "g" "p" 111000, slotKey := some (.det "g" "p" 111000),
    groupId := "g", profileKey := "p",
    scheduledPublishTime := none, eventStartsAt := some 111000,
    manualOverrides := none, status := "published", eventId := none,
    missedAt := none, queuedAt := none, deletedAt := none }

def c8Gone : PendingEvent :=
  { id := .det "g" "p" 222000, slotKey := some (.det "g" "p" 222000),
    groupId := "g", profileKey := "p",
    scheduledPublishTime := none, eventStartsAt := some 222000,
    manualOverrides := none, status := "published", eventId := some "zzz",
    missedAt := none, queuedAt := none, deletedAt := none }

def c8Remote : RemoteEvent :=
  { id := some "ev9", startsAtUtc := some 111000, eventStartsAt := none,
    title := some "T" }

/-- Witness for C8: two passes over a concrete store and remote list; the
second pass returns the first pass's store with zero counters. -/
theorem reconcilePublishedEvents_idempotent_witness :
    reconcilePublishedEvents (fun _ _ => none)
        ((reconcilePublishedEvents (fun _ _ => none) [c8Pub, c8Gone] "g" [c8Remote]).1)
        "g" [c8Remote] =
      ((reconcilePublishedEvents (fun _ _ => none) [c8Pub, c8Gone] "g" [c8Remote]).1,
        .ok 0 0) :=
  reconcilePublishedEvents_idempotent (fun _ _ => none) [c8Pub, c8Gone] "g" [c8Remote]
    (by decide) (by decide)
